import Mathlib

/-!
Plugin inventory commands of the tanzu-cli builder plugin.

A shallow embedding of `cmd/plugin/builder/inventory_plugin.go` (the `insert`,
`activate` and `deactivate` sub-commands of `inventory plugin`) and of the
fixture catalogues of `test/e2e/airgapped/plugins.go`.

The commands are built on the cobra/pflag libraries.  The part of those
libraries the source relies on is modelled here as plain data:

* a flag set is the list of defined flags (`formal`), the names of the flags
  that were set on the command line (`actual`) and the current contents of the
  Go struct the flags are bound to (`vars`);
* a command line is taken after lexing, as a list of flag occurrences
  (`--name=value`, `--name value` or bare `--name`) and positional arguments;
* the engine (`inventory.InventoryPluginUpdateOptions` and its two methods) is
  not part of the wiring layer; the commands take it as a parameter;
* the flags cobra adds by itself (`--help`) and the shorthand syntax are
  outside the model: every flag of the source has an empty shorthand.
-/

namespace TanzuInventory

/-! ## Errors -/

/-- Error values that reach the operator.  `nil` is `none` in `GoError`. -/
inductive Err where
  /-- pflag `SetAnnotation`: "no such flag -name". -/
  | noSuchFlag (name : String)
  /-- pflag parse: "unknown flag: --name". -/
  | unknownFlag (name : String)
  /-- pflag parse: "flag needs an argument: --name". -/
  | flagNeedsArgument (name : String)
  /-- pflag `Set`: "invalid argument value for name flag". -/
  | invalidArgument (value name : String)
  /-- cobra `ValidateRequiredFlags`: "required flag(s) ... not set". -/
  | requiredFlagsNotSet (names : List String)
  /-- cobra: the command is not runnable, `flag.ErrHelp`. -/
  | errHelp
  /-- The store's `ConflictError`, carrying the (name, target, version) key. -/
  | conflictError (name target version : String)
  /-- Any other error of the inventory engine or of its collaborators
  (`PullError`, `PushError`, `ManifestError`, `CorruptStoreError`, ...). -/
  | engineFailure (kind : String) (detail : String)
  deriving DecidableEq, Repr

/-- A Go `error` result: `none` is `nil`. -/
abbrev GoError := Option Err

/-! ## The engine interface used by the commands -/

/-- The value of `imgpkg.NewImgpkgCLIWrapper()`: a stateless wrapper around
the `imgpkg` command-line tool. -/
structure ImgpkgCLIWrapper where
  deriving DecidableEq, Repr

/-- The constructor `imgpkg.NewImgpkgCLIWrapper`. -/
def NewImgpkgCLIWrapper : ImgpkgCLIWrapper := {}

/-- The options struct `inventory.InventoryPluginUpdateOptions`, with the
fields the composite literals of `inventory_plugin.go` assign. -/
structure InventoryPluginUpdateOptions where
  Repository : String
  InventoryImageTag : String
  ManifestFile : String
  Vendor : String
  Publisher : String
  DeactivatePlugins : Bool
  ImgpkgOptions : ImgpkgCLIWrapper
  deriving DecidableEq, Repr

/-- The two engine operations the commands call, as methods on the options.
They live in package `inventory`; the wiring layer is parametric in them. -/
structure Engine where
  PluginInsert : InventoryPluginUpdateOptions → GoError
  UpdatePluginActivationState : InventoryPluginUpdateOptions → GoError

/-! ## cobra / pflag model -/

/-- The function `strconv.ParseBool`, used by pflag's bool value. -/
def ParseBool (s : String) : Option Bool :=
  if s ∈ ["1", "t", "T", "TRUE", "true", "True"] then some true
  else if s ∈ ["0", "f", "F", "FALSE", "false", "False"] then some false
  else none

/-- One defined flag of a flag set whose values are bound to a struct `σ`.
`Required` is the cobra annotation written by `MarkFlagRequired`;
`SetValue` is `Value.Set`, writing through the bound pointer (`none` when the
text is rejected). -/
structure Flag (σ : Type) where
  Name : String
  Shorthand : String
  Usage : String
  DefValue : String
  NoOptDefVal : String
  Required : Bool
  SetValue : String → σ → Option σ

/-- A cobra command together with its flag set.  `RunE` is `none` for a
command that has no run function; its `cmd` parameter, unused by every
closure of the source, is left out. -/
structure Command (σ : Type) where
  Use : String
  Short : String
  Example : String
  RunE : Option (Engine → σ → List String → GoError)
  flags : List (Flag σ)
  vars : σ
  actual : List String

/-- The empty command `&cobra.Command{}` over a zero-valued struct. -/
def Command.empty {σ : Type} (zero : σ) : Command σ :=
  { Use := "", Short := "", Example := "", RunE := none,
    flags := [], vars := zero, actual := [] }

/-- The call `Flags().StringVarP(p, name, shorthand, value, usage)`: the bound
variable receives the default and the flag is added to the set. -/
def Command.StringVarP {σ : Type} (c : Command σ) (p : σ → String → σ)
    (name shorthand value usage : String) : Command σ :=
  { c with
    vars := p c.vars value
    flags := c.flags ++
      [{ Name := name, Shorthand := shorthand, Usage := usage, DefValue := value,
         NoOptDefVal := "", Required := false,
         SetValue := fun s v => some (p v s) }] }

/-- The call `Flags().BoolVarP(p, name, shorthand, value, usage)`: a bool flag
may be given without a value, which then reads as "true". -/
def Command.BoolVarP {σ : Type} (c : Command σ) (p : σ → Bool → σ)
    (name shorthand : String) (value : Bool) (usage : String) : Command σ :=
  { c with
    vars := p c.vars value
    flags := c.flags ++
      [{ Name := name, Shorthand := shorthand, Usage := usage,
         DefValue := if value then "true" else "false",
         NoOptDefVal := "true", Required := false,
         SetValue := fun s v => (ParseBool s).map (p v) }] }

/-- The call `cmd.MarkFlagRequired(name)`: pflag's `SetAnnotation` fails with
"no such flag" when the name is not defined, and otherwise records the
annotation on that flag.  The command is returned with the error. -/
def Command.MarkFlagRequired {σ : Type} (c : Command σ) (name : String) :
    Command σ × GoError :=
  if c.flags.any (fun f => f.Name == name) then
    let marked := c.flags.map (fun f => if f.Name == name then { f with Required := true } else f)
    ({ c with flags := marked }, none)
  else (c, some (Err.noSuchFlag name))

/-- A flag occurrence on the command line, after lexing: the flag's name and
the value given with it (`none` for a bare `--name` with nothing to take). -/
structure FlagOcc where
  name : String
  value : Option String
  deriving DecidableEq, Repr

/-- The text a flag is set to by an occurrence: the value given with it, or
the flag's `NoOptDefVal` when it has one and no value was given. -/
def Flag.valueText {σ : Type} (f : Flag σ) (o : FlagOcc) : Option String :=
  match o.value with
  | some v => some v
  | none => if f.NoOptDefVal = "" then none else some f.NoOptDefVal

/-- Processing of one occurrence (pflag `parseLongArg` followed by
`FlagSet.Set`): look the flag up, pick the value text, store it through the
binding and record the flag as changed. -/
def Command.setFlag {σ : Type} (c : Command σ) (o : FlagOcc) : Except Err (Command σ) :=
  match c.flags.find? (fun f => f.Name == o.name) with
  | none => .error (Err.unknownFlag o.name)
  | some f =>
    match f.valueText o with
    | none => .error (Err.flagNeedsArgument o.name)
    | some v =>
      match f.SetValue v c.vars with
      | none => .error (Err.invalidArgument v f.Name)
      | some vars =>
        .ok { c with
              vars := vars
              actual := if f.Name ∈ c.actual then c.actual else c.actual ++ [f.Name] }

/-- The call `ParseFlags`: the occurrences are processed left to right and
the first error stops the parse. -/
def Command.ParseFlags {σ : Type} (c : Command σ) : List FlagOcc → Except Err (Command σ)
  | [] => .ok c
  | o :: os =>
    match c.setFlag o with
    | .error e => .error e
    | .ok c1 => Command.ParseFlags c1 os

/-- The names of the flags carrying the required annotation. -/
def Command.requiredFlagNames {σ : Type} (c : Command σ) : List String :=
  (c.flags.filter (fun f => f.Required)).map (fun f => f.Name)

/-- The names of all defined flags. -/
def Command.flagNames {σ : Type} (c : Command σ) : List String :=
  c.flags.map (fun f => f.Name)

/-- The check `ValidateRequiredFlags`: every flag annotated as required that
was not changed on the command line is reported.  The names are listed in
definition order (cobra visits the flags sorted by name; only the text of the
message depends on the order). -/
def Command.ValidateRequiredFlags {σ : Type} (c : Command σ) : GoError :=
  let missingFlagNames :=
    (c.flags.filter (fun f => f.Required && !(c.actual.contains f.Name))).map (fun f => f.Name)
  if missingFlagNames.length > 0 then some (Err.requiredFlagsNotSet missingFlagNames) else none

/-- The part of cobra's `execute` the commands go through: parse the flags,
refuse a command without run function, validate the required flags and call
`RunE` on the positional arguments. -/
def Command.execute {σ : Type} (c : Command σ) (eng : Engine)
    (occs : List FlagOcc) (args : List String) : GoError :=
  match c.ParseFlags occs with
  | .error e => some e
  | .ok c1 =>
    match c1.RunE with
    | none => some Err.errHelp
    | some run =>
      match c1.ValidateRequiredFlags with
      | some e => some e
      | none => run eng c1.vars args

/-! ## `inventory_plugin.go` -/

/-- The struct `inventoryPluginInsertFlags`. -/
structure inventoryPluginInsertFlags where
  Repository : String := ""
  InventoryImageTag : String := ""
  ManifestFile : String := ""
  Publisher : String := ""
  Vendor : String := ""
  DeactivatePlugins : Bool := false
  deriving DecidableEq, Repr

/-- The body of `newInventoryPluginInsertCmd`: the command it returns, paired
with the four results of `MarkFlagRequired` that the source assigns to `_`. -/
def buildInventoryPluginInsertCmd : Command inventoryPluginInsertFlags × List GoError :=
  let pluginInsertCmd : Command inventoryPluginInsertFlags :=
    { Command.empty ({} : inventoryPluginInsertFlags) with
      Use := "insert"
      Short := "Insert the plugin to the inventory database available on the remote repository"
      Example := ""
      RunE := some (fun eng ipiFlags _args =>
        let piOptions : InventoryPluginUpdateOptions :=
          { Repository := ipiFlags.Repository
            InventoryImageTag := ipiFlags.InventoryImageTag
            ManifestFile := ipiFlags.ManifestFile
            Vendor := ipiFlags.Vendor
            Publisher := ipiFlags.Publisher
            DeactivatePlugins := ipiFlags.DeactivatePlugins
            ImgpkgOptions := NewImgpkgCLIWrapper }
        eng.PluginInsert piOptions) }
  let c := pluginInsertCmd.StringVarP (fun s v => { s with Repository := v })
    "repository" "" "" "repository to publish plugin inventory image"
  let c := c.StringVarP (fun s v => { s with InventoryImageTag := v })
    "plugin-inventory-image-tag" "" "latest"
    "tag to which plugin inventory image needs to be published"
  let c := c.StringVarP (fun s v => { s with ManifestFile := v })
    "manifest" "" "" "manifest file specifying plugin details that needs to be processed"
  let c := c.StringVarP (fun s v => { s with Vendor := v })
    "vendor" "" "" "name of the vendor"
  let c := c.StringVarP (fun s v => { s with Publisher := v })
    "publisher" "" "" "name of the publisher"
  let c := c.BoolVarP (fun s v => { s with DeactivatePlugins := v })
    "deactivate" "" false "mark plugins as deactivated"
  let r1 := c.MarkFlagRequired "repository"
  let r2 := r1.1.MarkFlagRequired "vendor"
  let r3 := r2.1.MarkFlagRequired "publisher"
  let r4 := r3.1.MarkFlagRequired "manifest"
  (r4.1, [r1.2, r2.2, r3.2, r4.2])

/-- The function `newInventoryPluginInsertCmd`. -/
def newInventoryPluginInsertCmd : Command inventoryPluginInsertFlags :=
  buildInventoryPluginInsertCmd.1

/-- The struct `inventoryPluginActivateDeactivateFlags`. -/
structure inventoryPluginActivateDeactivateFlags where
  Repository : String := ""
  InventoryImageTag : String := ""
  ManifestFile : String := ""
  Publisher : String := ""
  Vendor : String := ""
  deriving DecidableEq, Repr

/-- The body of `getActivateDeactivateBaseCmd`: the command it returns, paired
with the four results of `MarkFlagRequired` that the source assigns to `_`.
The second result of the Go function, the pointer to the flags struct, is the
`vars` component of the command. -/
def buildActivateDeactivateBaseCmd :
    Command inventoryPluginActivateDeactivateFlags × List GoError :=
  let activateDeactivateCmd : Command inventoryPluginActivateDeactivateFlags :=
    Command.empty ({} : inventoryPluginActivateDeactivateFlags)
  let c := activateDeactivateCmd.StringVarP (fun s v => { s with Repository := v })
    "repository" "" "" "repository to publish plugin inventory image"
  let c := c.StringVarP (fun s v => { s with InventoryImageTag := v })
    "plugin-inventory-image-tag" "" "latest"
    "tag to which plugin inventory image needs to be published"
  let c := c.StringVarP (fun s v => { s with ManifestFile := v })
    "manifest" "" "" "manifest file specifying plugin details that needs to be processed"
  let c := c.StringVarP (fun s v => { s with Vendor := v })
    "vendor" "" "" "name of the vendor"
  let c := c.StringVarP (fun s v => { s with Publisher := v })
    "publisher" "" "" "name of the publisher"
  let r1 := c.MarkFlagRequired "repository"
  let r2 := r1.1.MarkFlagRequired "vendor"
  let r3 := r2.1.MarkFlagRequired "publisher"
  let r4 := r3.1.MarkFlagRequired "manifest"
  (r4.1, [r1.2, r2.2, r3.2, r4.2])

/-- The function `getActivateDeactivateBaseCmd`. -/
def getActivateDeactivateBaseCmd : Command inventoryPluginActivateDeactivateFlags :=
  buildActivateDeactivateBaseCmd.1

/-- The function `newInventoryPluginActivateCmd`. -/
def newInventoryPluginActivateCmd : Command inventoryPluginActivateDeactivateFlags :=
  let pluginDeactivateCmd := getActivateDeactivateBaseCmd
  { pluginDeactivateCmd with
    Use := "activate"
    Short := "Activate the existing plugin in the inventory database available on the remote repository"
    Example := ""
    RunE := some (fun eng flags _args =>
      let piOptions : InventoryPluginUpdateOptions :=
        { Repository := flags.Repository
          InventoryImageTag := flags.InventoryImageTag
          ManifestFile := flags.ManifestFile
          Vendor := flags.Vendor
          Publisher := flags.Publisher
          DeactivatePlugins := false
          ImgpkgOptions := NewImgpkgCLIWrapper }
      eng.UpdatePluginActivationState piOptions) }

/-- The function `newInventoryPluginDeactivateCmd`. -/
def newInventoryPluginDeactivateCmd : Command inventoryPluginActivateDeactivateFlags :=
  let pluginDeactivateCmd := getActivateDeactivateBaseCmd
  { pluginDeactivateCmd with
    Use := "deactivate"
    Short := "Deactivate the existing plugin in the inventory database available on the remote repository"
    Example := ""
    RunE := some (fun eng flags _args =>
      let piOptions : InventoryPluginUpdateOptions :=
        { Repository := flags.Repository
          InventoryImageTag := flags.InventoryImageTag
          ManifestFile := flags.ManifestFile
          Vendor := flags.Vendor
          Publisher := flags.Publisher
          DeactivatePlugins := true
          ImgpkgOptions := NewImgpkgCLIWrapper }
      eng.UpdatePluginActivationState piOptions) }

/-- Parsing followed by the required-flag check, the two steps of `execute`
that do not need a run function. -/
def Command.parseAndValidate {σ : Type} (c : Command σ) (occs : List FlagOcc) : GoError :=
  match c.ParseFlags occs with
  | .error e => some e
  | .ok c1 => c1.ValidateRequiredFlags

/-! ## `test/e2e/airgapped/plugins.go` -/

/-- The struct `framework.PluginInfo`, with the fields the fixtures assign. -/
structure PluginInfo where
  Name : String
  Target : String
  Version : String
  Description : String
  deriving DecidableEq, Repr

/-- The fixture `pluginsForPG_TKG_001`. -/
def pluginsForPG_TKG_001 : List PluginInfo :=
  [
    { Name := "cluster", Target := "kubernetes", Version := "v0.0.1", Description := "Desc for cluster" },
    { Name := "feature", Target := "kubernetes", Version := "v0.0.1", Description := "Desc for feature" },
    { Name := "kubernetes-release", Target := "kubernetes", Version := "v0.0.1", Description := "Desc for kubernetes-release" },
    { Name := "management-cluster", Target := "kubernetes", Version := "v0.0.1", Description := "Desc for management-cluster" },
    { Name := "package", Target := "kubernetes", Version := "v0.0.1", Description := "Desc for package" },
    { Name := "secret", Target := "kubernetes", Version := "v0.0.1", Description := "Desc for secret" },
    { Name := "telemetry", Target := "kubernetes", Version := "v0.0.1", Description := "Desc for telemetry" }
  ]

/-- The fixture `pluginsForPG_TKG_999`. -/
def pluginsForPG_TKG_999 : List PluginInfo :=
  [
    { Name := "cluster", Target := "kubernetes", Version := "v9.9.9", Description := "Desc for cluster" },
    { Name := "feature", Target := "kubernetes", Version := "v9.9.9", Description := "Desc for feature" },
    { Name := "kubernetes-release", Target := "kubernetes", Version := "v9.9.9", Description := "Desc for kubernetes-release" },
    { Name := "management-cluster", Target := "kubernetes", Version := "v9.9.9", Description := "Desc for management-cluster" },
    { Name := "package", Target := "kubernetes", Version := "v9.9.9", Description := "Desc for package" },
    { Name := "secret", Target := "kubernetes", Version := "v9.9.9", Description := "Desc for secret" },
    { Name := "telemetry", Target := "kubernetes", Version := "v9.9.9", Description := "Desc for telemetry" }
  ]

/-- The fixture `pluginsForPG_TMC_001`. -/
def pluginsForPG_TMC_001 : List PluginInfo :=
  [
    { Name := "account", Target := "mission-control", Version := "v0.0.1", Description := "Desc for account" },
    { Name := "apply", Target := "mission-control", Version := "v0.0.1", Description := "Desc for apply" },
    { Name := "audit", Target := "mission-control", Version := "v0.0.1", Description := "Desc for audit" },
    { Name := "cluster", Target := "mission-control", Version := "v0.0.1", Description := "Desc for cluster" },
    { Name := "clustergroup", Target := "mission-control", Version := "v0.0.1", Description := "Desc for clustergroup" },
    { Name := "data-protection", Target := "mission-control", Version := "v0.0.1", Description := "Desc for data-protection" },
    { Name := "ekscluster", Target := "mission-control", Version := "v0.0.1", Description := "Desc for ekscluster" },
    { Name := "events", Target := "mission-control", Version := "v0.0.1", Description := "Desc for events" },
    { Name := "iam", Target := "mission-control", Version := "v0.0.1", Description := "Desc for iam" },
    { Name := "inspection", Target := "mission-control", Version := "v0.0.1", Description := "Desc for inspection" },
    { Name := "integration", Target := "mission-control", Version := "v0.0.1", Description := "Desc for integration" },
    { Name := "management-cluster", Target := "mission-control", Version := "v0.0.1", Description := "Desc for management-cluster" },
    { Name := "policy", Target := "mission-control", Version := "v0.0.1", Description := "Desc for policy" },
    { Name := "workspace", Target := "mission-control", Version := "v0.0.1", Description := "Desc for workspace" },
    { Name := "helm", Target := "mission-control", Version := "v0.0.1", Description := "Desc for helm" },
    { Name := "secret", Target := "mission-control", Version := "v0.0.1", Description := "Desc for secret" },
    { Name := "continuousdelivery", Target := "mission-control", Version := "v0.0.1", Description := "Desc for continuousdelivery" },
    { Name := "tanzupackage", Target := "mission-control", Version := "v0.0.1", Description := "Desc for tanzupackage" }
  ]

/-- The fixture `pluginsForPG_TMC_999`. -/
def pluginsForPG_TMC_999 : List PluginInfo :=
  [
    { Name := "account", Target := "mission-control", Version := "v9.9.9", Description := "Desc for account" },
    { Name := "apply", Target := "mission-control", Version := "v9.9.9", Description := "Desc for apply" },
    { Name := "audit", Target := "mission-control", Version := "v9.9.9", Description := "Desc for audit" },
    { Name := "cluster", Target := "mission-control", Version := "v9.9.9", Description := "Desc for cluster" },
    { Name := "clustergroup", Target := "mission-control", Version := "v9.9.9", Description := "Desc for clustergroup" },
    { Name := "data-protection", Target := "mission-control", Version := "v9.9.9", Description := "Desc for data-protection" },
    { Name := "ekscluster", Target := "mission-control", Version := "v9.9.9", Description := "Desc for ekscluster" },
    { Name := "events", Target := "mission-control", Version := "v9.9.9", Description := "Desc for events" },
    { Name := "iam", Target := "mission-control", Version := "v9.9.9", Description := "Desc for iam" },
    { Name := "inspection", Target := "mission-control", Version := "v9.9.9", Description := "Desc for inspection" },
    { Name := "integration", Target := "mission-control", Version := "v9.9.9", Description := "Desc for integration" },
    { Name := "management-cluster", Target := "mission-control", Version := "v9.9.9", Description := "Desc for management-cluster" },
    { Name := "policy", Target := "mission-control", Version := "v9.9.9", Description := "Desc for policy" },
    { Name := "workspace", Target := "mission-control", Version := "v9.9.9", Description := "Desc for workspace" },
    { Name := "helm", Target := "mission-control", Version := "v9.9.9", Description := "Desc for helm" },
    { Name := "secret", Target := "mission-control", Version := "v9.9.9", Description := "Desc for secret" },
    { Name := "continuousdelivery", Target := "mission-control", Version := "v9.9.9", Description := "Desc for continuousdelivery" },
    { Name := "tanzupackage", Target := "mission-control", Version := "v9.9.9", Description := "Desc for tanzupackage" }
  ]

/-- The fixture `pluginsNotInAnyPG_001`. -/
def pluginsNotInAnyPG_001 : List PluginInfo :=
  [
    { Name := "isolated-cluster", Target := "global", Version := "v0.0.1", Description := "Desc for isolated-cluster" },
    { Name := "pinniped-auth", Target := "global", Version := "v0.0.1", Description := "Desc for pinniped-auth" }
  ]

/-- The fixture `pluginsNotInAnyPG_999`. -/
def pluginsNotInAnyPG_999 : List PluginInfo :=
  [
    { Name := "isolated-cluster", Target := "global", Version := "v9.9.9", Description := "Desc for isolated-cluster" },
    { Name := "pinniped-auth", Target := "global", Version := "v9.9.9", Description := "Desc for pinniped-auth" }
  ]

/-- The union of the six fixture catalogues, in source order. -/
def allFixturePlugins : List PluginInfo :=
  pluginsForPG_TKG_001 ++ pluginsForPG_TKG_999 ++ pluginsForPG_TMC_001 ++
    pluginsForPG_TMC_999 ++ pluginsNotInAnyPG_001 ++ pluginsNotInAnyPG_999

/-- The (Name, Target, Version) triple of a fixture entry. -/
def PluginInfo.key (p : PluginInfo) : String × String × String :=
  (p.Name, p.Target, p.Version)

/-! ## The statement "the command hands these options to the engine" -/

/-- The command `c` hands `opts` to the engine operation `op`: it has a run
function which, on the current contents of the bound flags struct, returns for
every engine and every positional arguments what `op` returns on `opts`. -/
def Command.HandsOver {σ : Type} (c : Command σ)
    (op : Engine → InventoryPluginUpdateOptions → GoError)
    (opts : InventoryPluginUpdateOptions) : Prop :=
  ∃ run, c.RunE = some run ∧ ∀ (eng : Engine) (args : List String),
    run eng c.vars args = op eng opts

/-- The text the operator gave for the flag `nm` on a command line: the value
of its last occurrence, and `dflt` when the flag does not occur (an occurrence
without a value leaves the text as it is). -/
def operatorInput (nm dflt : String) (occs : List FlagOcc) : String :=
  occs.foldl (fun acc o => if o.name = nm then o.value.getD acc else acc) dflt

/-! ## The insert operation of the engine, from the specification

The engine (package `inventory`) is not among the source files.  The insert
operation is modelled from sections 3, 4.2 and 4.3 of the specification; the
manifest loader, the transport client and the (de)serialisation of the store
are collaborators, taken as parameters. -/

/-- Modelled from the spec: one (os, arch, digest/URI) artifact tuple of a
plugin record; the record types of package `inventory` are missing. -/
structure Artifact where
  os : String
  arch : String
  digest : String
  deriving DecidableEq, Repr

/-- Modelled from the spec: the `PluginRecord` of section 3, missing from the
source files. -/
structure PluginRecord where
  name : String
  target : String
  version : String
  description : String
  vendor : String
  publisher : String
  activated : Bool
  artifacts : List Artifact
  deriving DecidableEq, Repr

/-- Modelled from the spec: the `ManifestEntry` of section 3, missing from the
source files; `line` is the manifest-local reference used in error reports. -/
structure ManifestEntry where
  name : String
  target : String
  version : String
  description : String
  artifacts : List Artifact
  line : Nat
  deriving DecidableEq, Repr

/-- Modelled from the spec: the Inventory Store of section 4.2 seen as its
rows in insertion order; the store implementation is missing. -/
abbrev Store := List PluginRecord

/-- Modelled from the spec: the store operation `insert` of section 4.2, whose
implementation is missing.  Entries are applied in manifest order; an entry
whose (name, target, version) key is already present aborts the whole batch
with `ConflictError`, or is skipped in the skip-existing mode; otherwise a
record owned by (vendor, publisher) is created with `activated` equal to
`activateOnInsert`. -/
def Store.insert (s : Store) (entries : List ManifestEntry) (vendor publisher : String)
    (activateOnInsert skipExisting : Bool) : Except Err Store :=
  match entries with
  | [] => .ok s
  | e :: es =>
    if s.any (fun r => (r.name, r.target, r.version) == (e.name, e.target, e.version)) then
      if skipExisting then Store.insert s es vendor publisher activateOnInsert skipExisting
      else .error (Err.conflictError e.name e.target e.version)
    else
      Store.insert
        (s ++ [{ name := e.name, target := e.target, version := e.version,
                 description := e.description, vendor := vendor, publisher := publisher,
                 activated := activateOnInsert, artifacts := e.artifacts }])
        es vendor publisher activateOnInsert skipExisting

/-- Modelled from the spec: the collaborators of the mutation engine
(sections 4.1, 4.2 and 6), all missing from the source files.  `ρ` is the
state of the remote repository and `β` the serialised bundle.  `pull` reads
the remote; `push` is all-or-nothing: it yields the new remote state or fails
leaving the remote as it was. -/
structure Collaborators (ρ β : Type) where
  load : String → Except Err (List ManifestEntry)
  pull : ρ → String → Except Err β
  openStore : β → Except Err Store
  serialize : Store → β
  push : ρ → String → String → β → Except Err ρ

/-- The result of one run of an engine operation: the error returned, the
remote state afterwards and the pushes attempted (repository, tag, bundle). -/
structure Outcome (ρ β : Type) where
  err : GoError
  remote : ρ
  pushes : List (String × String × β)

/-- Modelled from the spec: the operation `PluginInsert` of section 4.3, whose
implementation (package `inventory`) is missing from the source files.
Steps: 1 load the manifest, 2 pull the bundle from `options.Repository`,
3 open the store, 4 insert the entries scoped to vendor and publisher with
`DeactivatePlugins` inverted as the activate-on-insert flag, 5 serialise and
push to `options.Repository` under `options.InventoryImageTag`.  The options
carry no skip-existing input, so the insert runs in the default mode. -/
def PluginInsert {ρ β : Type} (k : Collaborators ρ β) (options : InventoryPluginUpdateOptions)
    (remote : ρ) : Outcome ρ β :=
  match k.load options.ManifestFile with
  | .error e => { err := some e, remote := remote, pushes := [] }
  | .ok entries =>
    match k.pull remote options.Repository with
    | .error e => { err := some e, remote := remote, pushes := [] }
    | .ok bundle =>
      match k.openStore bundle with
      | .error e => { err := some e, remote := remote, pushes := [] }
      | .ok store =>
        match store.insert entries options.Vendor options.Publisher
            (!options.DeactivatePlugins) false with
        | .error e => { err := some e, remote := remote, pushes := [] }
        | .ok store1 =>
          let bytes := k.serialize store1
          let attempt := (options.Repository, options.InventoryImageTag, bytes)
          match k.push remote options.Repository options.InventoryImageTag bytes with
          | .error e => { err := some e, remote := remote, pushes := [attempt] }
          | .ok remote1 => { err := none, remote := remote1, pushes := [attempt] }

/-- A remote repository for examples: the bundles stored under each
(repository, tag). -/
abbrev ExampleRemote := List ((String × String) × Store)

/-- Collaborators for examples: the bundle is the store itself, the manifest
file "plugins.yaml" holds one entry `foo` for kubernetes at v1.0.0, the pull
reads tag "latest" and the push replaces what is stored under its tag. -/
def exampleCollaborators : Collaborators ExampleRemote Store where
  load := fun path =>
    if path = "plugins.yaml" then
      .ok [{ name := "foo", target := "kubernetes", version := "v1.0.0",
             description := "", artifacts := [], line := 1 }]
    else .error (Err.engineFailure "ManifestError" path)
  pull := fun remote repo =>
    match remote.lookup (repo, "latest") with
    | some b => .ok b
    | none => .error (Err.engineFailure "PullError" repo)
  openStore := fun b => .ok b
  serialize := fun st => st
  push := fun remote repo tag b =>
    .ok (((repo, tag), b) :: remote.filter (fun x => x.1 != (repo, tag)))

/-- Example options: vendor and publisher "acme", manifest "plugins.yaml". -/
def exampleOptions : InventoryPluginUpdateOptions :=
  { Repository := "registry.local/inventory", InventoryImageTag := "latest",
    ManifestFile := "plugins.yaml", Vendor := "acme", Publisher := "acme",
    DeactivatePlugins := false, ImgpkgOptions := NewImgpkgCLIWrapper }

/-- Example remote whose bundle already holds `foo` for kubernetes at v1.0.0. -/
def exampleRemote : ExampleRemote :=
  [(("registry.local/inventory", "latest"),
    [{ name := "foo", target := "kubernetes", version := "v1.0.0", description := "",
       vendor := "acme", publisher := "acme", activated := true, artifacts := [] }])]

/-! ## General facts about the flag-set model -/

/-- A successful `setFlag` found a defined flag named as the occurrence, took
a value text for it and stored it through the binding. -/
theorem setFlag_ok {σ : Type} {c c1 : Command σ} {o : FlagOcc}
    (h : c.setFlag o = .ok c1) :
    ∃ f v vars, c.flags.find? (fun f => f.Name == o.name) = some f ∧
      f.valueText o = some v ∧ f.SetValue v c.vars = some vars ∧
      c1 = { c with
             vars := vars
             actual := if f.Name ∈ c.actual then c.actual else c.actual ++ [f.Name] } := by
  unfold Command.setFlag at h
  cases hf : c.flags.find? (fun f => f.Name == o.name) with
  | none => simp [hf] at h
  | some f =>
    cases ht : f.valueText o with
    | none => simp [hf, ht] at h
    | some v =>
      cases hs : f.SetValue v c.vars with
      | none => simp [hf, ht, hs] at h
      | some vars =>
        simp only [hf, ht, hs, Except.ok.injEq] at h
        exact ⟨f, v, vars, rfl, ht, hs, h.symm⟩

/-- A successful `setFlag` keeps the defined flags and the run function, was
given the name of a defined flag and adds exactly that name to `actual`. -/
theorem setFlag_inv {σ : Type} {c c1 : Command σ} {o : FlagOcc}
    (h : c.setFlag o = .ok c1) :
    c1.flags = c.flags ∧ c1.RunE = c.RunE ∧ o.name ∈ c.flagNames ∧
      (∀ n, n ∈ c1.actual ↔ n ∈ c.actual ∨ n = o.name) := by
  obtain ⟨f, v, vars, hf, -, -, rfl⟩ := setFlag_ok h
  have hname : f.Name = o.name := by
    have := List.find?_some hf
    simpa using this
  have hmem : f ∈ c.flags := List.mem_of_find?_eq_some hf
  refine ⟨rfl, rfl, ?_, ?_⟩
  · rw [← hname]
    exact List.mem_map_of_mem _ hmem
  · intro n
    by_cases hin : f.Name ∈ c.actual
    · simp only [hin, if_true]
      constructor
      · exact Or.inl
      · rintro (h | h)
        · exact h
        · rw [h, ← hname]; exact hin
    · simp [hin]
      rw [hname]

/-- A successful parse keeps the defined flags and the run function, met only
names of defined flags and adds to `actual` exactly the names that occur. -/
theorem ParseFlags_inv {σ : Type} (occs : List FlagOcc) :
    ∀ {c c1 : Command σ}, c.ParseFlags occs = .ok c1 →
      c1.flags = c.flags ∧ c1.RunE = c.RunE ∧ (∀ o ∈ occs, o.name ∈ c.flagNames) ∧
        (∀ n, n ∈ c1.actual ↔ n ∈ c.actual ∨ ∃ o ∈ occs, o.name = n) := by
  induction occs with
  | nil =>
    intro c c1 h
    simp only [Command.ParseFlags] at h
    injection h with h
    subst h
    simp
  | cons o os ih =>
    intro c c1 h
    simp only [Command.ParseFlags] at h
    split at h
    · cases h
    · rename_i c2 h2
      obtain ⟨hf2, hr2, hn2, ha2⟩ := setFlag_inv h2
      obtain ⟨hf, hr, hn, ha⟩ := ih h
      refine ⟨hf.trans hf2, hr.trans hr2, ?_, ?_⟩
      · intro o1 ho1
        rcases List.mem_cons.1 ho1 with rfl | ho1
        · exact hn2
        · have := hn o1 ho1
          simpa [Command.flagNames, hf2] using this
      · intro n
        rw [ha n, ha2 n]
        constructor
        · rintro ((h | h) | ⟨o1, ho1, h⟩)
          · exact Or.inl h
          · exact Or.inr ⟨o, List.mem_cons_self _ _, h.symm⟩
          · exact Or.inr ⟨o1, List.mem_cons_of_mem _ ho1, h⟩
        · rintro (h | ⟨o1, ho1, h⟩)
          · exact Or.inl (Or.inl h)
          · rcases List.mem_cons.1 ho1 with rfl | ho1
            · exact Or.inl (Or.inr h.symm)
            · exact Or.inr ⟨o1, ho1, h⟩

/-- The required-flag check passes exactly when every required name is in
`actual`. -/
theorem ValidateRequiredFlags_eq_none {σ : Type} (c : Command σ) :
    c.ValidateRequiredFlags = none ↔ ∀ n ∈ c.requiredFlagNames, n ∈ c.actual := by
  unfold Command.ValidateRequiredFlags Command.requiredFlagNames
  simp only [List.length_map, gt_iff_lt, List.length_pos, ne_eq, ite_eq_right_iff,
    reduceCtorEq, imp_false, not_not, List.filter_eq_nil_iff, Bool.and_eq_true,
    Bool.not_eq_true', not_and, Bool.not_eq_false, List.contains_eq_any_beq, List.any_eq_true,
    beq_iff_eq, List.mem_map, List.mem_filter, forall_exists_index, and_imp]
  constructor
  · intro h n f hf hr hn
    obtain ⟨x, hx, rfl⟩ := h f hf hr
    rw [← hn]; exact hx
  · intro h f hf hr
    exact ⟨f.Name, h f.Name f hf hr rfl, rfl⟩

/-- Commands with the same flags have the same required names. -/
theorem requiredFlagNames_of_flags_eq {σ : Type} {c c1 : Command σ}
    (h : c1.flags = c.flags) : c1.requiredFlagNames = c.requiredFlagNames := by
  simp [Command.requiredFlagNames, h]

/-! ## Parsing: what a command line leaves in the bound struct -/

/-- Parsing a concatenation is parsing the first part, then the second. -/
theorem ParseFlags_append {σ : Type} (xs ys : List FlagOcc) :
    ∀ c : Command σ, c.ParseFlags (xs ++ ys) =
      match c.ParseFlags xs with
      | .error e => .error e
      | .ok c1 => c1.ParseFlags ys := by
  induction xs with
  | nil => intro c; rfl
  | cons x xs ih =>
    intro c
    simp only [List.cons_append, Command.ParseFlags]
    cases c.setFlag x with
    | error e => rfl
    | ok c1 => exact ih c1

/-- Frame property of one occurrence: a projection of the bound struct that
no flag named otherwise than `nm` writes is kept by an occurrence of another
name. -/
theorem setFlag_frame {σ α : Type} (π : σ → α) (nm : String) {c c1 : Command σ} {o : FlagOcc}
    (hframe : ∀ f ∈ c.flags, f.Name ≠ nm → ∀ v s s1, f.SetValue v s = some s1 → π s1 = π s)
    (ho : o.name ≠ nm) (h : c.setFlag o = .ok c1) : π c1.vars = π c.vars := by
  obtain ⟨f, v, vars, hf, -, hs, rfl⟩ := setFlag_ok h
  have hname : f.Name = o.name := by
    have := List.find?_some hf
    simpa using this
  exact hframe f (List.mem_of_find?_eq_some hf) (by rw [hname]; exact ho) v c.vars vars hs

/-- Frame property of a parse without occurrence of `nm`. -/
theorem ParseFlags_frame {σ α : Type} (π : σ → α) (nm : String) (occs : List FlagOcc) :
    ∀ {c c1 : Command σ},
      (∀ f ∈ c.flags, f.Name ≠ nm → ∀ v s s1, f.SetValue v s = some s1 → π s1 = π s) →
      (∀ o ∈ occs, o.name ≠ nm) → c.ParseFlags occs = .ok c1 → π c1.vars = π c.vars := by
  induction occs with
  | nil =>
    intro c c1 _ _ h
    simp only [Command.ParseFlags, Except.ok.injEq] at h
    rw [h]
  | cons o os ih =>
    intro c c1 hframe hno h
    simp only [Command.ParseFlags] at h
    split at h
    · cases h
    · rename_i c2 h2
      have hfl := (setFlag_inv h2).1
      have h3 := @ih c2 c1 (by rw [hfl]; exact hframe)
        (fun o1 ho1 => hno o1 (List.mem_cons_of_mem _ ho1)) h
      rw [h3]
      exact setFlag_frame π nm hframe (hno o (List.mem_cons_self _ _)) h2

/-- What an occurrence of `nm` establishes for a projection of the bound
struct, given what the flags named `nm` write. -/
theorem setFlag_hit {σ α : Type} (π : σ → α) (nm : String) (P : α → Prop)
    {c c1 : Command σ} {o : FlagOcc}
    (hset : ∀ f ∈ c.flags, f.Name = nm → ∀ v s s1,
      f.valueText o = some v → f.SetValue v s = some s1 → P (π s1))
    (ho : o.name = nm) (h : c.setFlag o = .ok c1) : P (π c1.vars) := by
  obtain ⟨f, v, vars, hf, ht, hs, rfl⟩ := setFlag_ok h
  have hname : f.Name = o.name := by
    have := List.find?_some hf
    simpa using this
  exact hset f (List.mem_of_find?_eq_some hf) (hname.trans ho) v c.vars vars ht hs

/-- After a successful parse the last occurrence of `nm` decides the
projection. -/
theorem ParseFlags_last {σ α : Type} (π : σ → α) (nm : String) (P : α → Prop)
    (pre post : List FlagOcc) (o : FlagOcc) {c c1 : Command σ}
    (hframe : ∀ f ∈ c.flags, f.Name ≠ nm → ∀ v s s1, f.SetValue v s = some s1 → π s1 = π s)
    (hset : ∀ f ∈ c.flags, f.Name = nm → ∀ v s s1,
      f.valueText o = some v → f.SetValue v s = some s1 → P (π s1))
    (ho : o.name = nm) (hpost : ∀ o1 ∈ post, o1.name ≠ nm)
    (h : c.ParseFlags (pre ++ o :: post) = .ok c1) : P (π c1.vars) := by
  rw [ParseFlags_append] at h
  split at h
  · cases h
  · rename_i c2 h2
    have hfl2 := (ParseFlags_inv pre h2).1
    simp only [Command.ParseFlags] at h
    split at h
    · cases h
    · rename_i c3 h3
      have hfl3 := (setFlag_inv h3).1
      have h4 := @ParseFlags_frame σ α π nm post c3 c1
        (by rw [hfl3, hfl2]; exact hframe) hpost h
      rw [h4]
      exact setFlag_hit π nm P (by rw [hfl2]; exact hset) ho h3

/-! ## The flags of the three commands -/

/-- On insert, only the tag flag writes `InventoryImageTag`. -/
theorem insert_tag_frame :
    ∀ f ∈ newInventoryPluginInsertCmd.flags, f.Name ≠ "plugin-inventory-image-tag" →
      ∀ v s s1, f.SetValue v s = some s1 → s1.InventoryImageTag = s.InventoryImageTag := by
  intro f hf
  simp [newInventoryPluginInsertCmd, buildInventoryPluginInsertCmd, Command.StringVarP,
    Command.BoolVarP, Command.MarkFlagRequired, Command.empty] at hf
  rcases hf with rfl | rfl | rfl | rfl | rfl | rfl
  · intro _ v s s1 h; simp at h; subst h; rfl
  · intro h; simp at h
  · intro _ v s s1 h; simp at h; subst h; rfl
  · intro _ v s s1 h; simp at h; subst h; rfl
  · intro _ v s s1 h; simp at h; subst h; rfl
  · intro _ v s s1 h
    cases hb : ParseBool v with
    | none => simp [hb] at h
    | some b => simp [hb] at h; subst h; rfl

/-- On insert, the tag flag writes the value given with it. -/
theorem insert_tag_set (t : String) (o : FlagOcc) (ho : o.value = some t) :
    ∀ f ∈ newInventoryPluginInsertCmd.flags, f.Name = "plugin-inventory-image-tag" →
      ∀ v s s1, f.valueText o = some v → f.SetValue v s = some s1 →
        s1.InventoryImageTag = t := by
  intro f hf
  simp [newInventoryPluginInsertCmd, buildInventoryPluginInsertCmd, Command.StringVarP,
    Command.BoolVarP, Command.MarkFlagRequired, Command.empty] at hf
  rcases hf with rfl | rfl | rfl | rfl | rfl | rfl
  · intro h; simp at h
  · intro _ v s s1 hv h
    simp [Flag.valueText, ho] at hv
    simp at h; subst h; subst hv; rfl
  · intro h; simp at h
  · intro h; simp at h
  · intro h; simp at h
  · intro h; simp at h

/-- On insert, only the deactivate flag writes `DeactivatePlugins`. -/
theorem insert_deactivate_frame :
    ∀ f ∈ newInventoryPluginInsertCmd.flags, f.Name ≠ "deactivate" →
      ∀ v s s1, f.SetValue v s = some s1 → s1.DeactivatePlugins = s.DeactivatePlugins := by
  intro f hf
  simp [newInventoryPluginInsertCmd, buildInventoryPluginInsertCmd, Command.StringVarP,
    Command.BoolVarP, Command.MarkFlagRequired, Command.empty] at hf
  rcases hf with rfl | rfl | rfl | rfl | rfl | rfl
  · intro _ v s s1 h; simp at h; subst h; rfl
  · intro _ v s s1 h; simp at h; subst h; rfl
  · intro _ v s s1 h; simp at h; subst h; rfl
  · intro _ v s s1 h; simp at h; subst h; rfl
  · intro _ v s s1 h; simp at h; subst h; rfl
  · intro h; simp at h

/-- On insert, the deactivate flag writes the boolean its text reads as. -/
theorem insert_deactivate_set (o : FlagOcc) :
    ∀ f ∈ newInventoryPluginInsertCmd.flags, f.Name = "deactivate" →
      ∀ v s s1, f.valueText o = some v → f.SetValue v s = some s1 →
        ParseBool (o.value.getD "true") = some s1.DeactivatePlugins := by
  intro f hf
  simp [newInventoryPluginInsertCmd, buildInventoryPluginInsertCmd, Command.StringVarP,
    Command.BoolVarP, Command.MarkFlagRequired, Command.empty] at hf
  rcases hf with rfl | rfl | rfl | rfl | rfl | rfl
  · intro h; simp at h
  · intro h; simp at h
  · intro h; simp at h
  · intro h; simp at h
  · intro h; simp at h
  · intro _ v s s1 hv h
    have hv1 : o.value.getD "true" = v := by
      cases ho : o.value with
      | none => simp [Flag.valueText, ho] at hv; simp [hv]
      | some t => simp [Flag.valueText, ho] at hv; simp [hv]
    rw [hv1]
    cases hb : ParseBool v with
    | none => simp [hb] at h
    | some b => simp [hb] at h; subst h; rfl

/-- On a command with the base flags, only the tag flag writes
`InventoryImageTag`. -/
theorem base_tag_frame (c : Command inventoryPluginActivateDeactivateFlags)
    (hc : c.flags = getActivateDeactivateBaseCmd.flags) :
    ∀ f ∈ c.flags, f.Name ≠ "plugin-inventory-image-tag" →
      ∀ v s s1, f.SetValue v s = some s1 → s1.InventoryImageTag = s.InventoryImageTag := by
  intro f hf
  rw [hc] at hf
  simp [getActivateDeactivateBaseCmd, buildActivateDeactivateBaseCmd, Command.StringVarP,
    Command.MarkFlagRequired, Command.empty] at hf
  rcases hf with rfl | rfl | rfl | rfl | rfl
  · intro _ v s s1 h; simp at h; subst h; rfl
  · intro h; simp at h
  · intro _ v s s1 h; simp at h; subst h; rfl
  · intro _ v s s1 h; simp at h; subst h; rfl
  · intro _ v s s1 h; simp at h; subst h; rfl

/-- On a command with the base flags, the tag flag writes the value given
with it. -/
theorem base_tag_set (c : Command inventoryPluginActivateDeactivateFlags)
    (hc : c.flags = getActivateDeactivateBaseCmd.flags)
    (t : String) (o : FlagOcc) (ho : o.value = some t) :
    ∀ f ∈ c.flags, f.Name = "plugin-inventory-image-tag" →
      ∀ v s s1, f.valueText o = some v → f.SetValue v s = some s1 →
        s1.InventoryImageTag = t := by
  intro f hf
  rw [hc] at hf
  simp [getActivateDeactivateBaseCmd, buildActivateDeactivateBaseCmd, Command.StringVarP,
    Command.MarkFlagRequired, Command.empty] at hf
  rcases hf with rfl | rfl | rfl | rfl | rfl
  · intro h; simp at h
  · intro _ v s s1 hv h
    simp [Flag.valueText, ho] at hv
    simp at h; subst h; subst hv; rfl
  · intro h; simp at h
  · intro h; simp at h
  · intro h; simp at h

/-- Parsing from a command on which no flag was set yet passes the
required-flag check exactly when the parse succeeds and every required flag
occurs on the command line. -/
theorem parseAndValidate_eq_none {σ : Type} (c : Command σ) (hact : c.actual = [])
    (occs : List FlagOcc) :
    c.parseAndValidate occs = none ↔
      (∃ c1, c.ParseFlags occs = .ok c1) ∧
        ∀ n ∈ c.requiredFlagNames, ∃ o ∈ occs, o.name = n := by
  unfold Command.parseAndValidate
  cases h : c.ParseFlags occs with
  | error e => simp
  | ok c1 =>
    obtain ⟨hf, -, -, ha⟩ := ParseFlags_inv occs h
    simp only [ValidateRequiredFlags_eq_none, requiredFlagNames_of_flags_eq hf, ha, hact,
      List.not_mem_nil, false_or, Except.ok.injEq, exists_eq', true_and]

/-- The image tag handed over after a successful parse: generic in the
command, given that its flags are those of a command `c0` for which the frame
and set properties of the tag flag hold. -/
theorem tag_after_parse {σ : Type} (tagOf : σ → String) {c c1 : Command σ}
    (hframe : ∀ f ∈ c.flags, f.Name ≠ "plugin-inventory-image-tag" →
      ∀ v s s1, f.SetValue v s = some s1 → tagOf s1 = tagOf s)
    (hset : ∀ (t : String) (o : FlagOcc), o.value = some t →
      ∀ f ∈ c.flags, f.Name = "plugin-inventory-image-tag" →
        ∀ v s s1, f.valueText o = some v → f.SetValue v s = some s1 → tagOf s1 = t)
    (occs : List FlagOcc) (h : c.ParseFlags occs = .ok c1) :
    ((∀ o ∈ occs, o.name ≠ "plugin-inventory-image-tag") → tagOf c1.vars = tagOf c.vars) ∧
    (∀ pre post t, occs = pre ++ ⟨"plugin-inventory-image-tag", some t⟩ :: post →
      (∀ o ∈ post, o.name ≠ "plugin-inventory-image-tag") → tagOf c1.vars = t) := by
  refine ⟨fun hno => ParseFlags_frame tagOf _ occs hframe hno h, ?_⟩
  intro pre post t hocc hpost
  subst hocc
  exact ParseFlags_last tagOf "plugin-inventory-image-tag" (fun x => x = t) pre post
    ⟨"plugin-inventory-image-tag", some t⟩ hframe (hset t _ rfl) rfl hpost h

/-! ## Every string flag writes the field of its own name -/

/-- One occurrence sets a projection of the bound struct to the value given
with the flag `nm`, and keeps it on any other name, provided the flags named
`nm` take a value and write it to the projection and no other flag writes
it. -/
theorem setFlag_field {σ : Type} (π : σ → String) (nm : String) {c c1 : Command σ}
    {o : FlagOcc}
    (hframe : ∀ f ∈ c.flags, f.Name ≠ nm → ∀ v s s1, f.SetValue v s = some s1 → π s1 = π s)
    (hset : ∀ f ∈ c.flags, f.Name = nm →
      f.NoOptDefVal = "" ∧ ∀ v s s1, f.SetValue v s = some s1 → π s1 = v)
    (h : c.setFlag o = .ok c1) :
    π c1.vars = if o.name = nm then o.value.getD (π c.vars) else π c.vars := by
  obtain ⟨f, v, vars, hf, ht, hs, rfl⟩ := setFlag_ok h
  have hname : f.Name = o.name := by
    have := List.find?_some hf
    simpa using this
  have hmem : f ∈ c.flags := List.mem_of_find?_eq_some hf
  by_cases ho : o.name = nm
  · obtain ⟨hno, hw⟩ := hset f hmem (hname.trans ho)
    have hv : o.value = some v := by
      cases hov : o.value with
      | none => simp [Flag.valueText, hov, hno] at ht
      | some t => simp [Flag.valueText, hov] at ht; rw [ht]
    simp only [ho, if_true, hv, Option.getD_some]
    exact hw v c.vars vars hs
  · simp only [ho, if_false]
    exact hframe f hmem (by rw [hname]; exact ho) v c.vars vars hs

/-- After a successful parse a projection written only by the flag `nm` holds
the operator's input for `nm`, starting from what it held before. -/
theorem ParseFlags_field {σ : Type} (π : σ → String) (nm : String) (occs : List FlagOcc) :
    ∀ {c c1 : Command σ},
      (∀ f ∈ c.flags, f.Name ≠ nm → ∀ v s s1, f.SetValue v s = some s1 → π s1 = π s) →
      (∀ f ∈ c.flags, f.Name = nm →
        f.NoOptDefVal = "" ∧ ∀ v s s1, f.SetValue v s = some s1 → π s1 = v) →
      c.ParseFlags occs = .ok c1 → π c1.vars = operatorInput nm (π c.vars) occs := by
  induction occs with
  | nil =>
    intro c c1 _ _ h
    simp only [Command.ParseFlags, Except.ok.injEq] at h
    rw [h]; rfl
  | cons o os ih =>
    intro c c1 hframe hset h
    simp only [Command.ParseFlags] at h
    split at h
    · cases h
    · rename_i c2 h2
      have hfl := (setFlag_inv h2).1
      have h3 := @ih c2 c1 (by rw [hfl]; exact hframe) (by rw [hfl]; exact hset) h
      rw [h3, setFlag_field π nm hframe hset h2]
      simp only [operatorInput, List.foldl_cons]

/-- What each flag of the insert command writes: the field of its own name and
no other string field. -/
theorem insert_flag_writes :
    ∀ f ∈ newInventoryPluginInsertCmd.flags, ∀ v s s1, f.SetValue v s = some s1 →
      (s1.Repository = if f.Name = "repository" then v else s.Repository) ∧
      (s1.InventoryImageTag = if f.Name = "plugin-inventory-image-tag" then v else s.InventoryImageTag) ∧
      (s1.ManifestFile = if f.Name = "manifest" then v else s.ManifestFile) ∧
      (s1.Vendor = if f.Name = "vendor" then v else s.Vendor) ∧
      (s1.Publisher = if f.Name = "publisher" then v else s.Publisher) := by
  intro f hf v s s1 h
  simp [newInventoryPluginInsertCmd, buildInventoryPluginInsertCmd, Command.StringVarP,
    Command.BoolVarP, Command.MarkFlagRequired, Command.empty] at hf
  rcases hf with rfl | rfl | rfl | rfl | rfl | rfl
  · simp at h; subst h; simp
  · simp at h; subst h; simp
  · simp at h; subst h; simp
  · simp at h; subst h; simp
  · simp at h; subst h; simp
  · cases hb : ParseBool v with
    | none => simp [hb] at h
    | some b => simp [hb] at h; subst h; simp

/-- Every flag of the insert command other than `deactivate` needs a value. -/
theorem insert_flag_takes_value :
    ∀ f ∈ newInventoryPluginInsertCmd.flags, f.Name ≠ "deactivate" → f.NoOptDefVal = "" := by
  intro f hf
  simp [newInventoryPluginInsertCmd, buildInventoryPluginInsertCmd, Command.StringVarP,
    Command.BoolVarP, Command.MarkFlagRequired, Command.empty] at hf
  rcases hf with rfl | rfl | rfl | rfl | rfl | rfl <;> simp

/-- What each flag of the base command of activate and deactivate writes: the
field of its own name and no other. -/
theorem base_flag_writes :
    ∀ f ∈ getActivateDeactivateBaseCmd.flags, ∀ v s s1, f.SetValue v s = some s1 →
      (s1.Repository = if f.Name = "repository" then v else s.Repository) ∧
      (s1.InventoryImageTag = if f.Name = "plugin-inventory-image-tag" then v else s.InventoryImageTag) ∧
      (s1.ManifestFile = if f.Name = "manifest" then v else s.ManifestFile) ∧
      (s1.Vendor = if f.Name = "vendor" then v else s.Vendor) ∧
      (s1.Publisher = if f.Name = "publisher" then v else s.Publisher) := by
  intro f hf v s s1 h
  simp [getActivateDeactivateBaseCmd, buildActivateDeactivateBaseCmd, Command.StringVarP,
    Command.MarkFlagRequired, Command.empty] at hf
  rcases hf with rfl | rfl | rfl | rfl | rfl
  · simp at h; subst h; simp
  · simp at h; subst h; simp
  · simp at h; subst h; simp
  · simp at h; subst h; simp
  · simp at h; subst h; simp

/-- Every flag of the base command needs a value. -/
theorem base_flag_takes_value :
    ∀ f ∈ getActivateDeactivateBaseCmd.flags, f.NoOptDefVal = "" := by
  intro f hf
  simp [getActivateDeactivateBaseCmd, buildActivateDeactivateBaseCmd, Command.StringVarP,
    Command.MarkFlagRequired, Command.empty] at hf
  rcases hf with rfl | rfl | rfl | rfl | rfl <;> rfl

/-- After a successful parse of an insert command line, each string field of
the bound struct holds the operator's input for the flag of its own name. -/
theorem insert_fields_after_parse (occs : List FlagOcc)
    (c1 : Command inventoryPluginInsertFlags)
    (h : newInventoryPluginInsertCmd.ParseFlags occs = .ok c1) :
    c1.vars.Repository = operatorInput "repository" "" occs ∧
    c1.vars.InventoryImageTag = operatorInput "plugin-inventory-image-tag" "latest" occs ∧
    c1.vars.ManifestFile = operatorInput "manifest" "" occs ∧
    c1.vars.Vendor = operatorInput "vendor" "" occs ∧
    c1.vars.Publisher = operatorInput "publisher" "" occs := by
  refine ⟨?_, ?_, ?_, ?_, ?_⟩
  · exact ParseFlags_field (fun s => s.Repository) "repository" occs
      (fun f hf hne v s s1 hs => by
        have hw := (insert_flag_writes f hf v s s1 hs).1
        simpa [hne] using hw)
      (fun f hf he => ⟨insert_flag_takes_value f hf (by rw [he]; decide),
        fun v s s1 hs => by
          have hw := (insert_flag_writes f hf v s s1 hs).1
          simpa [he] using hw⟩) h
  · exact ParseFlags_field (fun s => s.InventoryImageTag) "plugin-inventory-image-tag" occs
      (fun f hf hne v s s1 hs => by
        have hw := (insert_flag_writes f hf v s s1 hs).2.1
        simpa [hne] using hw)
      (fun f hf he => ⟨insert_flag_takes_value f hf (by rw [he]; decide),
        fun v s s1 hs => by
          have hw := (insert_flag_writes f hf v s s1 hs).2.1
          simpa [he] using hw⟩) h
  · exact ParseFlags_field (fun s => s.ManifestFile) "manifest" occs
      (fun f hf hne v s s1 hs => by
        have hw := (insert_flag_writes f hf v s s1 hs).2.2.1
        simpa [hne] using hw)
      (fun f hf he => ⟨insert_flag_takes_value f hf (by rw [he]; decide),
        fun v s s1 hs => by
          have hw := (insert_flag_writes f hf v s s1 hs).2.2.1
          simpa [he] using hw⟩) h
  · exact ParseFlags_field (fun s => s.Vendor) "vendor" occs
      (fun f hf hne v s s1 hs => by
        have hw := (insert_flag_writes f hf v s s1 hs).2.2.2.1
        simpa [hne] using hw)
      (fun f hf he => ⟨insert_flag_takes_value f hf (by rw [he]; decide),
        fun v s s1 hs => by
          have hw := (insert_flag_writes f hf v s s1 hs).2.2.2.1
          simpa [he] using hw⟩) h
  · exact ParseFlags_field (fun s => s.Publisher) "publisher" occs
      (fun f hf hne v s s1 hs => by
        have hw := (insert_flag_writes f hf v s s1 hs).2.2.2.2
        simpa [hne] using hw)
      (fun f hf he => ⟨insert_flag_takes_value f hf (by rw [he]; decide),
        fun v s s1 hs => by
          have hw := (insert_flag_writes f hf v s s1 hs).2.2.2.2
          simpa [he] using hw⟩) h

/-- After a successful parse on a command with the base flags, each field of
the bound struct holds the operator's input for the flag of its own name,
starting from what the field held before. -/
theorem base_fields_after_parse (c : Command inventoryPluginActivateDeactivateFlags)
    (hc : c.flags = getActivateDeactivateBaseCmd.flags) (occs : List FlagOcc)
    (c1 : Command inventoryPluginActivateDeactivateFlags)
    (h : c.ParseFlags occs = .ok c1) :
    c1.vars.Repository = operatorInput "repository" c.vars.Repository occs ∧
    c1.vars.InventoryImageTag = operatorInput "plugin-inventory-image-tag" c.vars.InventoryImageTag occs ∧
    c1.vars.ManifestFile = operatorInput "manifest" c.vars.ManifestFile occs ∧
    c1.vars.Vendor = operatorInput "vendor" c.vars.Vendor occs ∧
    c1.vars.Publisher = operatorInput "publisher" c.vars.Publisher occs := by
  refine ⟨?_, ?_, ?_, ?_, ?_⟩
  · exact ParseFlags_field (fun s => s.Repository) "repository" occs
      (fun f hf hne v s s1 hs => by
        have hw := (base_flag_writes f (hc ▸ hf) v s s1 hs).1
        simpa [hne] using hw)
      (fun f hf he => ⟨base_flag_takes_value f (hc ▸ hf),
        fun v s s1 hs => by
          have hw := (base_flag_writes f (hc ▸ hf) v s s1 hs).1
          simpa [he] using hw⟩) h
  · exact ParseFlags_field (fun s => s.InventoryImageTag) "plugin-inventory-image-tag" occs
      (fun f hf hne v s s1 hs => by
        have hw := (base_flag_writes f (hc ▸ hf) v s s1 hs).2.1
        simpa [hne] using hw)
      (fun f hf he => ⟨base_flag_takes_value f (hc ▸ hf),
        fun v s s1 hs => by
          have hw := (base_flag_writes f (hc ▸ hf) v s s1 hs).2.1
          simpa [he] using hw⟩) h
  · exact ParseFlags_field (fun s => s.ManifestFile) "manifest" occs
      (fun f hf hne v s s1 hs => by
        have hw := (base_flag_writes f (hc ▸ hf) v s s1 hs).2.2.1
        simpa [hne] using hw)
      (fun f hf he => ⟨base_flag_takes_value f (hc ▸ hf),
        fun v s s1 hs => by
          have hw := (base_flag_writes f (hc ▸ hf) v s s1 hs).2.2.1
          simpa [he] using hw⟩) h
  · exact ParseFlags_field (fun s => s.Vendor) "vendor" occs
      (fun f hf hne v s s1 hs => by
        have hw := (base_flag_writes f (hc ▸ hf) v s s1 hs).2.2.2.1
        simpa [hne] using hw)
      (fun f hf he => ⟨base_flag_takes_value f (hc ▸ hf),
        fun v s s1 hs => by
          have hw := (base_flag_writes f (hc ▸ hf) v s s1 hs).2.2.2.1
          simpa [he] using hw⟩) h
  · exact ParseFlags_field (fun s => s.Publisher) "publisher" occs
      (fun f hf hne v s s1 hs => by
        have hw := (base_flag_writes f (hc ▸ hf) v s s1 hs).2.2.2.2
        simpa [hne] using hw)
      (fun f hf he => ⟨base_flag_takes_value f (hc ▸ hf),
        fun v s s1 hs => by
          have hw := (base_flag_writes f (hc ▸ hf) v s s1 hs).2.2.2.2
          simpa [he] using hw⟩) h

/-! ## Required flags (C1, C2, C10) -/

/-- C2: the flags marked required on the insert command are exactly
repository, vendor, publisher and manifest; the image tag and the deactivate
flag are defined but not required; and a command line passes the required-flag
check exactly when it parses and names each of the four. -/
theorem insert_required_flags :
    (∀ n, n ∈ newInventoryPluginInsertCmd.requiredFlagNames ↔
      n ∈ ["repository", "vendor", "publisher", "manifest"]) ∧
    newInventoryPluginInsertCmd.flagNames =
      ["repository", "plugin-inventory-image-tag", "manifest", "vendor", "publisher",
        "deactivate"] ∧
    "plugin-inventory-image-tag" ∉ newInventoryPluginInsertCmd.requiredFlagNames ∧
    "deactivate" ∉ newInventoryPluginInsertCmd.requiredFlagNames ∧
    (∀ occs, newInventoryPluginInsertCmd.parseAndValidate occs = none ↔
      (∃ c1, newInventoryPluginInsertCmd.ParseFlags occs = .ok c1) ∧
        ∀ n ∈ ["repository", "vendor", "publisher", "manifest"], ∃ o ∈ occs, o.name = n) := by
  have hreq : newInventoryPluginInsertCmd.requiredFlagNames =
      ["repository", "manifest", "vendor", "publisher"] := by decide
  have hmem : ∀ n, n ∈ newInventoryPluginInsertCmd.requiredFlagNames ↔
      n ∈ ["repository", "vendor", "publisher", "manifest"] := by
    intro n; rw [hreq]; simp only [List.mem_cons, List.mem_singleton, List.not_mem_nil]; tauto
  refine ⟨hmem, by decide, by decide, by decide, ?_⟩
  intro occs
  rw [parseAndValidate_eq_none _ rfl]
  constructor
  · rintro ⟨h1, h2⟩
    exact ⟨h1, fun n hn => h2 n ((hmem n).2 hn)⟩
  · rintro ⟨h1, h2⟩
    exact ⟨h1, fun n hn => h2 n ((hmem n).1 hn)⟩

/-- C2, concrete run: an insert command line naming the four required flags
and neither the tag nor the deactivate flag passes the check, and one without
the manifest is refused. -/
theorem insert_required_flags_witness :
    newInventoryPluginInsertCmd.parseAndValidate
        [⟨"repository", some "r"⟩, ⟨"vendor", some "v"⟩, ⟨"publisher", some "p"⟩,
          ⟨"manifest", some "m"⟩] = none ∧
      newInventoryPluginInsertCmd.parseAndValidate
        [⟨"repository", some "r"⟩, ⟨"vendor", some "v"⟩, ⟨"publisher", some "p"⟩] ≠ none := by
  constructor
  · exact (insert_required_flags.2.2.2.2 _).2 ⟨⟨_, rfl⟩, by decide⟩
  · intro h
    have := ((insert_required_flags.2.2.2.2 _).1 h).2 "manifest" (by decide)
    revert this
    decide

/-- C1 as stated fails: on the command built by `getActivateDeactivateBaseCmd`
the manifest flag is marked required, and a command line that supplies
repository, vendor and publisher but no manifest is refused by the
required-flag check, for the base command and for activate and deactivate
(whatever the engine would do). -/
theorem activateDeactivate_manifest_not_optional :
    "manifest" ∈ getActivateDeactivateBaseCmd.requiredFlagNames ∧
    getActivateDeactivateBaseCmd.parseAndValidate
        [⟨"repository", some "r"⟩, ⟨"vendor", some "v"⟩, ⟨"publisher", some "p"⟩] =
      some (Err.requiredFlagsNotSet ["manifest"]) ∧
    newInventoryPluginActivateCmd.execute ⟨fun _ => none, fun _ => none⟩
        [⟨"repository", some "r"⟩, ⟨"vendor", some "v"⟩, ⟨"publisher", some "p"⟩] [] =
      some (Err.requiredFlagsNotSet ["manifest"]) ∧
    newInventoryPluginDeactivateCmd.execute ⟨fun _ => none, fun _ => none⟩
        [⟨"repository", some "r"⟩, ⟨"vendor", some "v"⟩, ⟨"publisher", some "p"⟩] [] =
      some (Err.requiredFlagsNotSet ["manifest"]) := by
  decide

/-- C1, amended: on the command built by `getActivateDeactivateBaseCmd`, and so
on activate and deactivate, which keep its flag set, the flags marked required
are exactly repository, vendor, publisher and manifest; the image tag is not
required; and a command line passes the required-flag check exactly when it
parses and names each of the four. -/
theorem activateDeactivate_required_flags :
    (∀ n, n ∈ getActivateDeactivateBaseCmd.requiredFlagNames ↔
      n ∈ ["repository", "vendor", "publisher", "manifest"]) ∧
    newInventoryPluginActivateCmd.flags = getActivateDeactivateBaseCmd.flags ∧
    newInventoryPluginDeactivateCmd.flags = getActivateDeactivateBaseCmd.flags ∧
    "plugin-inventory-image-tag" ∉ getActivateDeactivateBaseCmd.requiredFlagNames ∧
    (∀ occs, getActivateDeactivateBaseCmd.parseAndValidate occs = none ↔
      (∃ c1, getActivateDeactivateBaseCmd.ParseFlags occs = .ok c1) ∧
        ∀ n ∈ ["repository", "vendor", "publisher", "manifest"], ∃ o ∈ occs, o.name = n) ∧
    (∀ occs, newInventoryPluginActivateCmd.parseAndValidate occs = none ↔
      (∃ c1, newInventoryPluginActivateCmd.ParseFlags occs = .ok c1) ∧
        ∀ n ∈ ["repository", "vendor", "publisher", "manifest"], ∃ o ∈ occs, o.name = n) ∧
    (∀ occs, newInventoryPluginDeactivateCmd.parseAndValidate occs = none ↔
      (∃ c1, newInventoryPluginDeactivateCmd.ParseFlags occs = .ok c1) ∧
        ∀ n ∈ ["repository", "vendor", "publisher", "manifest"], ∃ o ∈ occs, o.name = n) := by
  have hreq : getActivateDeactivateBaseCmd.requiredFlagNames =
      ["repository", "manifest", "vendor", "publisher"] := by decide
  have hmem : ∀ n, n ∈ getActivateDeactivateBaseCmd.requiredFlagNames ↔
      n ∈ ["repository", "vendor", "publisher", "manifest"] := by
    intro n; rw [hreq]; simp only [List.mem_cons, List.mem_singleton, List.not_mem_nil]; tauto
  have key : ∀ c : Command inventoryPluginActivateDeactivateFlags,
      c.flags = getActivateDeactivateBaseCmd.flags → c.actual = [] →
      ∀ occs, c.parseAndValidate occs = none ↔
        (∃ c1, c.ParseFlags occs = .ok c1) ∧
          ∀ n ∈ ["repository", "vendor", "publisher", "manifest"], ∃ o ∈ occs, o.name = n := by
    intro c hf ha occs
    rw [parseAndValidate_eq_none c ha, requiredFlagNames_of_flags_eq hf]
    constructor
    · rintro ⟨h1, h2⟩
      exact ⟨h1, fun n hn => h2 n ((hmem n).2 hn)⟩
    · rintro ⟨h1, h2⟩
      exact ⟨h1, fun n hn => h2 n ((hmem n).1 hn)⟩
  exact ⟨hmem, rfl, rfl, by decide, key _ rfl rfl, key _ rfl rfl, key _ rfl rfl⟩

/-- C1, amended, concrete run: an activate command line naming repository,
vendor, publisher and manifest passes the required-flag check. -/
theorem activateDeactivate_required_flags_witness :
    newInventoryPluginActivateCmd.parseAndValidate
        [⟨"repository", some "r"⟩, ⟨"vendor", some "v"⟩, ⟨"publisher", some "p"⟩,
          ⟨"manifest", some "m"⟩] = none :=
  (activateDeactivate_required_flags.2.2.2.2.2.1 _).2 ⟨⟨_, rfl⟩, by decide⟩

/-- C10: on the insert command and on the base command of activate and
deactivate, each of the four `MarkFlagRequired` calls returns nil, because the
name it is given is defined at that point; and every name so marked carries
the required annotation on each of the three commands. -/
theorem markFlagRequired_never_fails :
    buildInventoryPluginInsertCmd.2 = [none, none, none, none] ∧
    buildActivateDeactivateBaseCmd.2 = [none, none, none, none] ∧
    (∀ n ∈ ["repository", "vendor", "publisher", "manifest"],
      n ∈ newInventoryPluginInsertCmd.flagNames ∧
      n ∈ newInventoryPluginInsertCmd.requiredFlagNames ∧
      n ∈ newInventoryPluginActivateCmd.flagNames ∧
      n ∈ newInventoryPluginActivateCmd.requiredFlagNames ∧
      n ∈ newInventoryPluginDeactivateCmd.flagNames ∧
      n ∈ newInventoryPluginDeactivateCmd.requiredFlagNames) ∧
    (∀ (c : Command inventoryPluginInsertFlags) (n : String),
      (c.MarkFlagRequired n).2 = none ↔ n ∈ c.flagNames) ∧
    (∀ (c : Command inventoryPluginActivateDeactivateFlags) (n : String),
      (c.MarkFlagRequired n).2 = none ↔ n ∈ c.flagNames) := by
  have gen : ∀ {σ : Type} (c : Command σ) (n : String),
      (c.MarkFlagRequired n).2 = none ↔ n ∈ c.flagNames := by
    intro σ c n
    unfold Command.MarkFlagRequired Command.flagNames
    by_cases h : c.flags.any (fun f => f.Name == n) = true
    · simp only [h, if_true, true_iff]
      simpa using h
    · simp only [h]
      simp only [Bool.false_eq_true, if_false, reduceCtorEq, false_iff]
      simpa using h
  exact ⟨by decide, by decide, by decide, gen, gen⟩

/-! ## The image tag (C3) -/

/-- C3: for insert, activate and deactivate, after any command line that
parses, the options handed to the engine have `InventoryImageTag` equal to
"latest" when the tag flag does not occur, and equal to `t` when the last
occurrence of the tag flag carries the value `t`. -/
theorem imageTag_default_latest :
    (∀ (occs : List FlagOcc) (c1 : Command inventoryPluginInsertFlags),
      newInventoryPluginInsertCmd.ParseFlags occs = .ok c1 →
      ∃ opts, c1.HandsOver Engine.PluginInsert opts ∧
        ((∀ o ∈ occs, o.name ≠ "plugin-inventory-image-tag") → opts.InventoryImageTag = "latest") ∧
        (∀ pre post t, occs = pre ++ ⟨"plugin-inventory-image-tag", some t⟩ :: post →
          (∀ o ∈ post, o.name ≠ "plugin-inventory-image-tag") → opts.InventoryImageTag = t)) ∧
    (∀ (occs : List FlagOcc) (c1 : Command inventoryPluginActivateDeactivateFlags),
      newInventoryPluginActivateCmd.ParseFlags occs = .ok c1 →
      ∃ opts, c1.HandsOver Engine.UpdatePluginActivationState opts ∧
        ((∀ o ∈ occs, o.name ≠ "plugin-inventory-image-tag") → opts.InventoryImageTag = "latest") ∧
        (∀ pre post t, occs = pre ++ ⟨"plugin-inventory-image-tag", some t⟩ :: post →
          (∀ o ∈ post, o.name ≠ "plugin-inventory-image-tag") → opts.InventoryImageTag = t)) ∧
    (∀ (occs : List FlagOcc) (c1 : Command inventoryPluginActivateDeactivateFlags),
      newInventoryPluginDeactivateCmd.ParseFlags occs = .ok c1 →
      ∃ opts, c1.HandsOver Engine.UpdatePluginActivationState opts ∧
        ((∀ o ∈ occs, o.name ≠ "plugin-inventory-image-tag") → opts.InventoryImageTag = "latest") ∧
        (∀ pre post t, occs = pre ++ ⟨"plugin-inventory-image-tag", some t⟩ :: post →
          (∀ o ∈ post, o.name ≠ "plugin-inventory-image-tag") → opts.InventoryImageTag = t)) := by
  refine ⟨?_, ?_, ?_⟩
  · intro occs c1 h
    obtain ⟨-, hr, -, -⟩ := ParseFlags_inv occs h
    obtain ⟨h1, h2⟩ := tag_after_parse (fun s => s.InventoryImageTag)
      insert_tag_frame insert_tag_set occs h
    exact ⟨_, ⟨_, hr, fun _ _ => rfl⟩, h1, h2⟩
  · intro occs c1 h
    obtain ⟨-, hr, -, -⟩ := ParseFlags_inv occs h
    obtain ⟨h1, h2⟩ := tag_after_parse (fun s => s.InventoryImageTag)
      (base_tag_frame newInventoryPluginActivateCmd rfl)
      (base_tag_set newInventoryPluginActivateCmd rfl) occs h
    exact ⟨_, ⟨_, hr, fun _ _ => rfl⟩, h1, h2⟩
  · intro occs c1 h
    obtain ⟨-, hr, -, -⟩ := ParseFlags_inv occs h
    obtain ⟨h1, h2⟩ := tag_after_parse (fun s => s.InventoryImageTag)
      (base_tag_frame newInventoryPluginDeactivateCmd rfl)
      (base_tag_set newInventoryPluginDeactivateCmd rfl) occs h
    exact ⟨_, ⟨_, hr, fun _ _ => rfl⟩, h1, h2⟩

/-- C3, concrete runs: an insert command line without the tag flag hands over
"latest", and a deactivate command line with `--plugin-inventory-image-tag=v2`
hands over "v2". -/
theorem imageTag_default_latest_witness :
    (∃ c1, newInventoryPluginInsertCmd.ParseFlags
        [⟨"repository", some "r"⟩, ⟨"manifest", some "m"⟩] = .ok c1 ∧
      ∃ opts, c1.HandsOver Engine.PluginInsert opts ∧ opts.InventoryImageTag = "latest") ∧
    (∃ c1, newInventoryPluginDeactivateCmd.ParseFlags
        [⟨"plugin-inventory-image-tag", some "v2"⟩, ⟨"repository", some "r"⟩] = .ok c1 ∧
      ∃ opts, c1.HandsOver Engine.UpdatePluginActivationState opts ∧
        opts.InventoryImageTag = "v2") := by
  constructor
  · obtain ⟨opts, hh, hdef, -⟩ := imageTag_default_latest.1
      [⟨"repository", some "r"⟩, ⟨"manifest", some "m"⟩] _ rfl
    exact ⟨_, rfl, opts, hh, hdef (by decide)⟩
  · obtain ⟨opts, hh, -, hset⟩ := imageTag_default_latest.2.2
      [⟨"plugin-inventory-image-tag", some "v2"⟩, ⟨"repository", some "r"⟩] _ rfl
    exact ⟨_, rfl, opts, hh, hset [] [⟨"repository", some "r"⟩] "v2" rfl (by decide)⟩

/-! ## The deactivate flag (C4, C5) -/

/-- C4: after any insert command line that parses, the options handed to
`PluginInsert` carry in `DeactivatePlugins` the value of the bound deactivate
flag; that value is false when the flag does not occur, and otherwise it is
what the last occurrence says (a bare `--deactivate` reading as "true"), so it
is true exactly when the operator asked for deactivation. -/
theorem insert_deactivatePlugins_follows_flag (occs : List FlagOcc)
    (c1 : Command inventoryPluginInsertFlags)
    (h : newInventoryPluginInsertCmd.ParseFlags occs = .ok c1) :
    ∃ opts, c1.HandsOver Engine.PluginInsert opts ∧
      opts.DeactivatePlugins = c1.vars.DeactivatePlugins ∧
      ((∀ o ∈ occs, o.name ≠ "deactivate") → opts.DeactivatePlugins = false) ∧
      (∀ pre o post, occs = pre ++ o :: post → o.name = "deactivate" →
        (∀ o1 ∈ post, o1.name ≠ "deactivate") →
        ParseBool (o.value.getD "true") = some opts.DeactivatePlugins ∧
        (opts.DeactivatePlugins = true ↔ ParseBool (o.value.getD "true") = some true)) := by
  obtain ⟨-, hr, -, -⟩ := ParseFlags_inv occs h
  refine ⟨_, ⟨_, hr, fun _ _ => rfl⟩, rfl, ?_, ?_⟩
  · intro hno
    exact ParseFlags_frame (fun s => s.DeactivatePlugins) "deactivate" occs
      insert_deactivate_frame hno h
  · intro pre o post hocc ho hpost
    subst hocc
    have hp := ParseFlags_last (fun s => s.DeactivatePlugins) "deactivate"
      (fun b => ParseBool (o.value.getD "true") = some b) pre post o
      insert_deactivate_frame (insert_deactivate_set o) ho hpost h
    refine ⟨hp, ?_⟩
    simp only at hp
    rw [hp]
    simp

/-- C4, concrete runs: without the flag the entries are requested activated,
with a bare `--deactivate` they are requested deactivated. -/
theorem insert_deactivatePlugins_follows_flag_witness :
    (∃ c1, newInventoryPluginInsertCmd.ParseFlags [⟨"repository", some "r"⟩] = .ok c1 ∧
      ∃ opts, c1.HandsOver Engine.PluginInsert opts ∧ opts.DeactivatePlugins = false) ∧
    (∃ c1, newInventoryPluginInsertCmd.ParseFlags
        [⟨"deactivate", none⟩, ⟨"repository", some "r"⟩] = .ok c1 ∧
      ∃ opts, c1.HandsOver Engine.PluginInsert opts ∧ opts.DeactivatePlugins = true) := by
  constructor
  · obtain ⟨opts, hh, -, hdef, -⟩ := insert_deactivatePlugins_follows_flag
      [⟨"repository", some "r"⟩] _ rfl
    exact ⟨_, rfl, opts, hh, hdef (by decide)⟩
  · obtain ⟨opts, hh, -, -, hset⟩ := insert_deactivatePlugins_follows_flag
      [⟨"deactivate", none⟩, ⟨"repository", some "r"⟩] _ rfl
    exact ⟨_, rfl, opts, hh,
      ((hset [] ⟨"deactivate", none⟩ [⟨"repository", some "r"⟩] rfl rfl (by decide)).2).2
        (by decide)⟩

/-- C5: whatever the contents of the flags struct, the run function of
activate returns what `UpdatePluginActivationState` returns on options whose
`DeactivatePlugins` is false, and that of deactivate on options whose
`DeactivatePlugins` is true; the result does not depend on the engine's
`PluginInsert`; and the same holds after any command line that parses. -/
theorem activate_deactivate_fixed_state :
    (∃ run, newInventoryPluginActivateCmd.RunE = some run ∧
      (∀ flags, ∃ opts, opts.DeactivatePlugins = false ∧
        ∀ eng args, run eng flags args = eng.UpdatePluginActivationState opts) ∧
      (∀ eng flags args insertOp,
        run { eng with PluginInsert := insertOp } flags args = run eng flags args)) ∧
    (∃ run, newInventoryPluginDeactivateCmd.RunE = some run ∧
      (∀ flags, ∃ opts, opts.DeactivatePlugins = true ∧
        ∀ eng args, run eng flags args = eng.UpdatePluginActivationState opts) ∧
      (∀ eng flags args insertOp,
        run { eng with PluginInsert := insertOp } flags args = run eng flags args)) ∧
    (∀ occs c1, newInventoryPluginActivateCmd.ParseFlags occs = .ok c1 →
      ∃ opts, c1.HandsOver Engine.UpdatePluginActivationState opts ∧
        opts.DeactivatePlugins = false) ∧
    (∀ occs c1, newInventoryPluginDeactivateCmd.ParseFlags occs = .ok c1 →
      ∃ opts, c1.HandsOver Engine.UpdatePluginActivationState opts ∧
        opts.DeactivatePlugins = true) := by
  refine ⟨⟨_, rfl, fun _ => ⟨_, rfl, fun _ _ => rfl⟩, fun _ _ _ _ => rfl⟩,
    ⟨_, rfl, fun _ => ⟨_, rfl, fun _ _ => rfl⟩, fun _ _ _ _ => rfl⟩, ?_, ?_⟩
  · intro occs c1 h
    obtain ⟨-, hr, -, -⟩ := ParseFlags_inv occs h
    exact ⟨_, ⟨_, hr, fun _ _ => rfl⟩, rfl⟩
  · intro occs c1 h
    obtain ⟨-, hr, -, -⟩ := ParseFlags_inv occs h
    exact ⟨_, ⟨_, hr, fun _ _ => rfl⟩, rfl⟩

/-- C5, concrete runs: after a full activate command line the options handed
to `UpdatePluginActivationState` have `DeactivatePlugins` false, and after the
same deactivate command line they have it true. -/
theorem activate_deactivate_fixed_state_witness :
    (∃ c1, newInventoryPluginActivateCmd.ParseFlags
        [⟨"repository", some "r"⟩, ⟨"vendor", some "v"⟩, ⟨"publisher", some "p"⟩,
          ⟨"manifest", some "m"⟩] = .ok c1 ∧
      ∃ opts, c1.HandsOver Engine.UpdatePluginActivationState opts ∧
        opts.DeactivatePlugins = false) ∧
    (∃ c1, newInventoryPluginDeactivateCmd.ParseFlags
        [⟨"repository", some "r"⟩, ⟨"vendor", some "v"⟩, ⟨"publisher", some "p"⟩,
          ⟨"manifest", some "m"⟩] = .ok c1 ∧
      ∃ opts, c1.HandsOver Engine.UpdatePluginActivationState opts ∧
        opts.DeactivatePlugins = true) := by
  constructor
  · have h := activate_deactivate_fixed_state.2.2.1
      [⟨"repository", some "r"⟩, ⟨"vendor", some "v"⟩, ⟨"publisher", some "p"⟩,
        ⟨"manifest", some "m"⟩] _ rfl
    exact ⟨_, rfl, h⟩
  · have h := activate_deactivate_fixed_state.2.2.2
      [⟨"repository", some "r"⟩, ⟨"vendor", some "v"⟩, ⟨"publisher", some "p"⟩,
        ⟨"manifest", some "m"⟩] _ rfl
    exact ⟨_, rfl, h⟩

/-! ## Flags to options (C6) and results (C7) -/

/-- C6: for each of the three commands and every contents of the flags
struct, the options handed to the engine carry `Repository`,
`InventoryImageTag`, `ManifestFile`, `Vendor` and `Publisher` from the flag
field of the same name, whatever the engine and the positional arguments; and
after any command line that parses, each of these five option fields holds the
operator's input for the flag of its own name (`--repository`,
`--plugin-inventory-image-tag`, `--manifest`, `--vendor`, `--publisher`): the
value of the last occurrence of that flag, or its default when it does not
occur, so that no field depends on another flag and vendor and publisher are
not swapped. -/
theorem options_carry_flags :
    (∃ run, newInventoryPluginInsertCmd.RunE = some run ∧
      ∀ (ipiFlags : inventoryPluginInsertFlags) eng args, run eng ipiFlags args =
        eng.PluginInsert
        { Repository := ipiFlags.Repository, InventoryImageTag := ipiFlags.InventoryImageTag,
          ManifestFile := ipiFlags.ManifestFile, Vendor := ipiFlags.Vendor, Publisher := ipiFlags.Publisher,
          DeactivatePlugins := ipiFlags.DeactivatePlugins, ImgpkgOptions := NewImgpkgCLIWrapper }) ∧
    (∃ run, newInventoryPluginActivateCmd.RunE = some run ∧
      ∀ (flags : inventoryPluginActivateDeactivateFlags) eng args, run eng flags args =
        eng.UpdatePluginActivationState
        { Repository := flags.Repository, InventoryImageTag := flags.InventoryImageTag,
          ManifestFile := flags.ManifestFile, Vendor := flags.Vendor, Publisher := flags.Publisher,
          DeactivatePlugins := false, ImgpkgOptions := NewImgpkgCLIWrapper }) ∧
    (∃ run, newInventoryPluginDeactivateCmd.RunE = some run ∧
      ∀ (flags : inventoryPluginActivateDeactivateFlags) eng args, run eng flags args =
        eng.UpdatePluginActivationState
        { Repository := flags.Repository, InventoryImageTag := flags.InventoryImageTag,
          ManifestFile := flags.ManifestFile, Vendor := flags.Vendor, Publisher := flags.Publisher,
          DeactivatePlugins := true, ImgpkgOptions := NewImgpkgCLIWrapper }) ∧
    (∀ (occs : List FlagOcc) (c1 : Command inventoryPluginInsertFlags),
      newInventoryPluginInsertCmd.ParseFlags occs = .ok c1 →
      ∃ opts, c1.HandsOver Engine.PluginInsert opts ∧
        opts.Repository = operatorInput "repository" "" occs ∧
        opts.InventoryImageTag = operatorInput "plugin-inventory-image-tag" "latest" occs ∧
        opts.ManifestFile = operatorInput "manifest" "" occs ∧
        opts.Vendor = operatorInput "vendor" "" occs ∧
        opts.Publisher = operatorInput "publisher" "" occs) ∧
    (∀ (occs : List FlagOcc) (c1 : Command inventoryPluginActivateDeactivateFlags),
      newInventoryPluginActivateCmd.ParseFlags occs = .ok c1 →
      ∃ opts, c1.HandsOver Engine.UpdatePluginActivationState opts ∧
        opts.Repository = operatorInput "repository" "" occs ∧
        opts.InventoryImageTag = operatorInput "plugin-inventory-image-tag" "latest" occs ∧
        opts.ManifestFile = operatorInput "manifest" "" occs ∧
        opts.Vendor = operatorInput "vendor" "" occs ∧
        opts.Publisher = operatorInput "publisher" "" occs) ∧
    (∀ (occs : List FlagOcc) (c1 : Command inventoryPluginActivateDeactivateFlags),
      newInventoryPluginDeactivateCmd.ParseFlags occs = .ok c1 →
      ∃ opts, c1.HandsOver Engine.UpdatePluginActivationState opts ∧
        opts.Repository = operatorInput "repository" "" occs ∧
        opts.InventoryImageTag = operatorInput "plugin-inventory-image-tag" "latest" occs ∧
        opts.ManifestFile = operatorInput "manifest" "" occs ∧
        opts.Vendor = operatorInput "vendor" "" occs ∧
        opts.Publisher = operatorInput "publisher" "" occs) := by
  refine ⟨⟨_, rfl, fun _ _ _ => rfl⟩, ⟨_, rfl, fun _ _ _ => rfl⟩, ⟨_, rfl, fun _ _ _ => rfl⟩,
    ?_, ?_, ?_⟩
  · intro occs c1 h
    obtain ⟨-, hr, -, -⟩ := ParseFlags_inv occs h
    exact ⟨_, ⟨_, hr, fun _ _ => rfl⟩, insert_fields_after_parse occs c1 h⟩
  · intro occs c1 h
    obtain ⟨-, hr, -, -⟩ := ParseFlags_inv occs h
    exact ⟨_, ⟨_, hr, fun _ _ => rfl⟩,
      base_fields_after_parse newInventoryPluginActivateCmd rfl occs c1 h⟩
  · intro occs c1 h
    obtain ⟨-, hr, -, -⟩ := ParseFlags_inv occs h
    exact ⟨_, ⟨_, hr, fun _ _ => rfl⟩,
      base_fields_after_parse newInventoryPluginDeactivateCmd rfl occs c1 h⟩

/-- C6, concrete runs: an insert command line giving each flag its own value,
the vendor twice, hands over each value in the field of the same name, the
last vendor winning; an activate command line with the flags in another order
does the same and keeps the default tag. -/
theorem options_carry_flags_witness :
    (∃ c1, newInventoryPluginInsertCmd.ParseFlags
        [⟨"publisher", some "acme-publisher"⟩, ⟨"vendor", some "old-vendor"⟩,
          ⟨"manifest", some "plugins.yaml"⟩, ⟨"repository", some "registry.local/inv"⟩,
          ⟨"plugin-inventory-image-tag", some "v2"⟩, ⟨"vendor", some "acme-vendor"⟩] = .ok c1 ∧
      ∃ opts, c1.HandsOver Engine.PluginInsert opts ∧
        opts.Repository = "registry.local/inv" ∧ opts.InventoryImageTag = "v2" ∧
        opts.ManifestFile = "plugins.yaml" ∧ opts.Vendor = "acme-vendor" ∧
        opts.Publisher = "acme-publisher") ∧
    (∃ c1, newInventoryPluginActivateCmd.ParseFlags
        [⟨"publisher", some "acme-publisher"⟩, ⟨"vendor", some "acme-vendor"⟩,
          ⟨"manifest", some "plugins.yaml"⟩, ⟨"repository", some "registry.local/inv"⟩] =
          .ok c1 ∧
      ∃ opts, c1.HandsOver Engine.UpdatePluginActivationState opts ∧
        opts.Repository = "registry.local/inv" ∧ opts.InventoryImageTag = "latest" ∧
        opts.ManifestFile = "plugins.yaml" ∧ opts.Vendor = "acme-vendor" ∧
        opts.Publisher = "acme-publisher") := by
  constructor
  · obtain ⟨opts, hh, h1, h2, h3, h4, h5⟩ := options_carry_flags.2.2.2.1
      [⟨"publisher", some "acme-publisher"⟩, ⟨"vendor", some "old-vendor"⟩,
        ⟨"manifest", some "plugins.yaml"⟩, ⟨"repository", some "registry.local/inv"⟩,
        ⟨"plugin-inventory-image-tag", some "v2"⟩, ⟨"vendor", some "acme-vendor"⟩] _ rfl
    exact ⟨_, rfl, opts, hh, h1.trans (by decide), h2.trans (by decide),
      h3.trans (by decide), h4.trans (by decide), h5.trans (by decide)⟩
  · obtain ⟨opts, hh, h1, h2, h3, h4, h5⟩ := options_carry_flags.2.2.2.2.1
      [⟨"publisher", some "acme-publisher"⟩, ⟨"vendor", some "acme-vendor"⟩,
        ⟨"manifest", some "plugins.yaml"⟩, ⟨"repository", some "registry.local/inv"⟩] _ rfl
    exact ⟨_, rfl, opts, hh, h1.trans (by decide), h2.trans (by decide),
      h3.trans (by decide), h4.trans (by decide), h5.trans (by decide)⟩

/-- C7: for each of the three commands there is a map from the flags struct to
options such that the run function returns exactly what the engine operation
(`PluginInsert` for insert, `UpdatePluginActivationState` for activate and
deactivate) returns on those options: nil exactly when the engine returns nil,
the same error otherwise, independently of the positional arguments; and the
same value is the result of `execute` once parsing and the required-flag check
have passed. -/
theorem runE_returns_engine_result :
    (∃ run, ∃ optsOf : inventoryPluginInsertFlags → InventoryPluginUpdateOptions,
      newInventoryPluginInsertCmd.RunE = some run ∧
      (∀ eng flags args, run eng flags args = eng.PluginInsert (optsOf flags)) ∧
      (∀ eng flags args e, run eng flags args = some e ↔
        eng.PluginInsert (optsOf flags) = some e) ∧
      (∀ eng flags args args2, run eng flags args = run eng flags args2) ∧
      (∀ eng occs args c1, newInventoryPluginInsertCmd.ParseFlags occs = .ok c1 →
        c1.ValidateRequiredFlags = none →
        newInventoryPluginInsertCmd.execute eng occs args =
          eng.PluginInsert (optsOf c1.vars))) ∧
    (∃ run, ∃ optsOf : inventoryPluginActivateDeactivateFlags → InventoryPluginUpdateOptions,
      newInventoryPluginActivateCmd.RunE = some run ∧
      (∀ eng flags args, run eng flags args =
        eng.UpdatePluginActivationState (optsOf flags)) ∧
      (∀ eng flags args e, run eng flags args = some e ↔
        eng.UpdatePluginActivationState (optsOf flags) = some e) ∧
      (∀ eng flags args args2, run eng flags args = run eng flags args2) ∧
      (∀ eng occs args c1, newInventoryPluginActivateCmd.ParseFlags occs = .ok c1 →
        c1.ValidateRequiredFlags = none →
        newInventoryPluginActivateCmd.execute eng occs args =
          eng.UpdatePluginActivationState (optsOf c1.vars))) ∧
    (∃ run, ∃ optsOf : inventoryPluginActivateDeactivateFlags → InventoryPluginUpdateOptions,
      newInventoryPluginDeactivateCmd.RunE = some run ∧
      (∀ eng flags args, run eng flags args =
        eng.UpdatePluginActivationState (optsOf flags)) ∧
      (∀ eng flags args e, run eng flags args = some e ↔
        eng.UpdatePluginActivationState (optsOf flags) = some e) ∧
      (∀ eng flags args args2, run eng flags args = run eng flags args2) ∧
      (∀ eng occs args c1, newInventoryPluginDeactivateCmd.ParseFlags occs = .ok c1 →
        c1.ValidateRequiredFlags = none →
        newInventoryPluginDeactivateCmd.execute eng occs args =
          eng.UpdatePluginActivationState (optsOf c1.vars))) := by
  have hexec : ∀ {σ : Type} (c : Command σ) (run : Engine → σ → List String → GoError),
      c.RunE = some run → ∀ eng occs args c1, c.ParseFlags occs = .ok c1 →
        c1.ValidateRequiredFlags = none → c.execute eng occs args = run eng c1.vars args := by
    intro σ c run hrun eng occs args c1 hp hv
    obtain ⟨-, hr, -, -⟩ := ParseFlags_inv occs hp
    simp only [Command.execute, hp, hr, hrun, hv]
  refine ⟨⟨_, _, rfl, fun _ _ _ => rfl, fun _ _ _ _ => Iff.rfl, fun _ _ _ _ => rfl, ?_⟩,
    ⟨_, _, rfl, fun _ _ _ => rfl, fun _ _ _ _ => Iff.rfl, fun _ _ _ _ => rfl, ?_⟩,
    ⟨_, _, rfl, fun _ _ _ => rfl, fun _ _ _ _ => Iff.rfl, fun _ _ _ _ => rfl, ?_⟩⟩
  · intro eng occs args c1 hp hv
    exact hexec _ _ rfl eng occs args c1 hp hv
  · intro eng occs args c1 hp hv
    exact hexec _ _ rfl eng occs args c1 hp hv
  · intro eng occs args c1 hp hv
    exact hexec _ _ rfl eng occs args c1 hp hv

/-- C7, concrete run: when the engine's `PluginInsert` fails with a conflict,
a full insert command line returns that very error. -/
theorem runE_returns_engine_result_witness :
    newInventoryPluginInsertCmd.execute
        ⟨fun _ => some (Err.conflictError "foo" "kubernetes" "v1.0.0"), fun _ => none⟩
        [⟨"repository", some "r"⟩, ⟨"vendor", some "v"⟩, ⟨"publisher", some "p"⟩,
          ⟨"manifest", some "m"⟩] ["extra"] =
      some (Err.conflictError "foo" "kubernetes" "v1.0.0") := by
  obtain ⟨_, optsOf, -, -, -, -, hexec⟩ := runE_returns_engine_result.1
  exact hexec ⟨fun _ => some (Err.conflictError "foo" "kubernetes" "v1.0.0"), fun _ => none⟩
    _ ["extra"] _ rfl (by decide)

/-! ## Atomicity of insert (C8) -/

/-- C8 (against the insert operation modelled from the specification): in
every run of `PluginInsert` in which loading the manifest, the pull, opening
the store or the insertion fails, no push is attempted, the remote state is
the one before the run and an error is returned; and whenever a push is
attempted, the four earlier steps have all succeeded and the single push
carries the serialised store to `Repository` under `InventoryImageTag`. -/
theorem pluginInsert_no_push_on_failure {ρ β : Type} (k : Collaborators ρ β)
    (options : InventoryPluginUpdateOptions) (remote : ρ) :
    (((∃ e, k.load options.ManifestFile = .error e) ∨
      (∃ e, k.pull remote options.Repository = .error e) ∨
      (∃ b e, k.pull remote options.Repository = .ok b ∧ k.openStore b = .error e) ∨
      (∃ entries b s e, k.load options.ManifestFile = .ok entries ∧
        k.pull remote options.Repository = .ok b ∧ k.openStore b = .ok s ∧
        s.insert entries options.Vendor options.Publisher (!options.DeactivatePlugins) false =
          .error e)) →
      (PluginInsert k options remote).pushes = [] ∧
      (PluginInsert k options remote).remote = remote ∧
      (PluginInsert k options remote).err ≠ none) ∧
    ((PluginInsert k options remote).pushes ≠ [] →
      ∃ entries b s s1, k.load options.ManifestFile = .ok entries ∧
        k.pull remote options.Repository = .ok b ∧ k.openStore b = .ok s ∧
        s.insert entries options.Vendor options.Publisher (!options.DeactivatePlugins) false =
          .ok s1 ∧
        (PluginInsert k options remote).pushes =
          [(options.Repository, options.InventoryImageTag, k.serialize s1)]) := by
  cases hl : k.load options.ManifestFile with
  | error e => simp [PluginInsert, hl]
  | ok entries =>
    cases hp : k.pull remote options.Repository with
    | error e => simp [PluginInsert, hl, hp]
    | ok b =>
      cases ho : k.openStore b with
      | error e => simp [PluginInsert, hl, hp, ho]
      | ok s =>
        cases hi : s.insert entries options.Vendor options.Publisher
            (!options.DeactivatePlugins) false with
        | error e => simp [PluginInsert, hl, hp, ho, hi]
        | ok s1 =>
          cases hpush : k.push remote options.Repository options.InventoryImageTag
              (k.serialize s1) with
          | error e => simp [PluginInsert, hl, hp, ho, hi, hpush]
          | ok r1 => simp [PluginInsert, hl, hp, ho, hi, hpush]

/-- C8, concrete run: inserting `foo` for kubernetes at v1.0.0 into a remote
bundle that already holds it fails with the conflict, attempts no push and
leaves the remote as it was. -/
theorem pluginInsert_no_push_on_failure_witness :
    (PluginInsert exampleCollaborators exampleOptions exampleRemote).pushes = [] ∧
    (PluginInsert exampleCollaborators exampleOptions exampleRemote).remote = exampleRemote ∧
    (PluginInsert exampleCollaborators exampleOptions exampleRemote).err ≠ none :=
  (pluginInsert_no_push_on_failure exampleCollaborators exampleOptions exampleRemote).1
    (Or.inr (Or.inr (Or.inr ⟨_, _, _, Err.conflictError "foo" "kubernetes" "v1.0.0",
      rfl, rfl, rfl, rfl⟩)))

/-! ## The fixture catalogues (C9) -/

/-- C9: across the union of the six fixture catalogues no two entries share
the same (Name, Target, Version) triple, although names repeat and so do
(Name, Version) pairs: "cluster" at v0.0.1 is listed both for kubernetes and
for mission-control. -/
theorem fixture_triples_unique :
    (allFixturePlugins.map PluginInfo.key).Nodup ∧
    allFixturePlugins.length = 54 ∧
    ¬ (allFixturePlugins.map (fun p => p.Name)).Nodup ∧
    ¬ (allFixturePlugins.map (fun p => (p.Name, p.Version))).Nodup ∧
    ({ Name := "cluster", Target := "kubernetes", Version := "v0.0.1",
       Description := "Desc for cluster" } : PluginInfo) ∈ pluginsForPG_TKG_001 ∧
    ({ Name := "cluster", Target := "mission-control", Version := "v0.0.1",
       Description := "Desc for cluster" } : PluginInfo) ∈ pluginsForPG_TMC_001 := by
  refine ⟨by decide, by decide, by decide, by decide, by decide, by decide⟩

end TanzuInventory
